import Mathlib

/-!
Verification of the wallet-service ledger core (Dino-ventures).

This file is a shallow embedding of the TypeScript sources:

* src/services/walletService.ts — the transaction coordinator
  (topupWallet, issueBonus, spendCredits, getOrCreateWallet,
  getTreasuryWallet, lockWalletsInOrder, computeBalance,
  computeBalanceInTx, getBalance);
* src/middleware/errorHandler.ts — mapping of thrown errors to HTTP
  responses;
* src/controllers/walletController.ts — the zod request-schema gate;
* prisma/migrations/0001_init/migration.sql — the data model and the
  uniqueness constraint on LedgerEntry.idempotencyKey.

Modelling conventions:

* Monetary amounts are `Int` values in units of 10⁻⁴ (the DECIMAL(20,4)
  fixed scale): the stored quantity `new Decimal(amount).toFixed(4)` of a
  request amount representable at that scale is the amount itself.
* Prisma-generated ids (cuid) are passed in explicitly as a `FreshIds`
  record; freshness is a hypothesis where a theorem needs it.
* A `prisma.$transaction` unit is a function from the store to either an
  error (in which case the unit rolls back and the original store is
  kept) or a result together with the committed store.
* JavaScript `Array.prototype.sort()` on wallet-id strings compares
  UTF-16 code units; the ids in this system are ASCII, where code-unit
  order and code-point order coincide, so the comparator below works on
  code points.
-/

/-! ### Lexicographic order on strings (JS default sort comparator) -/

/-- Lexicographic less-or-equal on char lists, by code point. -/
def charListLeb : List Char → List Char → Bool
  | [], _ => true
  | _ :: _, [] => false
  | a :: as, b :: bs =>
    if a.toNat < b.toNat then true
    else if b.toNat < a.toNat then false
    else charListLeb as bs

/-- Lexicographic less-or-equal on strings, the order used by the JS
default `sort()` on wallet ids. -/
def strLeb (a b : String) : Bool := charListLeb a.data b.data

/-- The propositional form of `strLeb`. -/
def strLe (a b : String) : Prop := strLeb a b = true

instance (a b : String) : Decidable (strLe a b) := by
  unfold strLe; infer_instance

/-! ### Data model (prisma/migrations/0001_init/migration.sql) -/

/-- A row of the `User` table. -/
structure UserRec where
  id : String
  username : String
  email : String
  isSystem : Bool
deriving DecidableEq, Repr

/-- A row of the `AssetType` table. -/
structure AssetTypeRec where
  id : String
  name : String
  symbol : String
deriving DecidableEq, Repr

/-- A row of the `Wallet` table: unique per (userId, assetTypeId), no
balance column. -/
structure WalletRec where
  id : String
  userId : String
  assetTypeId : String
deriving DecidableEq, Repr

/-- The `TransactionType` enum. -/
inductive TransactionType
  | TOPUP
  | BONUS
  | SPEND
deriving DecidableEq, Repr

/-- The `TxStatus` enum. -/
inductive TxStatus
  | PENDING
  | COMPLETED
  | FAILED
deriving DecidableEq, Repr

/-- A row of the `Transaction` table. -/
structure TransactionRec where
  id : String
  type : TransactionType
  status : TxStatus
  description : Option String
deriving DecidableEq, Repr

/-- A row of the `LedgerEntry` table.  `amount` is in units of 10⁻⁴. -/
structure LedgerEntry where
  id : String
  transactionId : String
  assetTypeId : String
  debitWalletId : String
  creditWalletId : String
  amount : Int
  transactionType : TransactionType
  description : Option String
  idempotencyKey : Option String
deriving DecidableEq, Repr

/-- The transactional store: all five tables. -/
structure Store where
  users : List UserRec
  assetTypes : List AssetTypeRec
  wallets : List WalletRec
  transactions : List TransactionRec
  entries : List LedgerEntry
deriving DecidableEq, Repr

/-! ### BalanceCalculator (computeBalance / computeBalanceInTx)

Both SQL bodies are the same query:

```
SELECT COALESCE(
  SUM(CASE WHEN "creditWalletId" = $w THEN amount ELSE 0 END) -
  SUM(CASE WHEN "debitWalletId"  = $w THEN amount ELSE 0 END), 0)
FROM "LedgerEntry"
WHERE "creditWalletId" = $w OR "debitWalletId" = $w
```
-/

/-- Derived balance of a wallet over a list of ledger entries: the SQL
query of `computeBalance` (the empty SUM is NULL, COALESCEd to 0, which
is the empty list sum). -/
def balanceOf (entries : List LedgerEntry) (walletId : String) : Int :=
  ((entries.filter fun e =>
      e.creditWalletId == walletId || e.debitWalletId == walletId).map
    fun e => if e.creditWalletId == walletId then e.amount else 0).sum
  - ((entries.filter fun e =>
      e.creditWalletId == walletId || e.debitWalletId == walletId).map
    fun e => if e.debitWalletId == walletId then e.amount else 0).sum

/-- `computeBalance` of walletService.ts (also `computeBalanceInTx`,
whose query is identical and differs only in the connection it runs
on). -/
def computeBalance (s : Store) (walletId : String) : Int :=
  balanceOf s.entries walletId

/-- The spec's wording of balance derivation: sum of entry amounts
crediting the wallet minus sum of entry amounts debiting it. -/
def specBalanceOf (entries : List LedgerEntry) (walletId : String) : Int :=
  ((entries.filter fun e => e.creditWalletId == walletId).map
      fun e => e.amount).sum
  - ((entries.filter fun e => e.debitWalletId == walletId).map
      fun e => e.amount).sum

/-! ### WalletRegistry -/

/-- `getOrCreateWallet`: `wallet.upsert` keyed on (userId, assetTypeId);
`freshId` is the id Prisma would generate for a newly created row. -/
def getOrCreateWallet (s : Store) (userId assetTypeId freshId : String) :
    WalletRec × Store :=
  match s.wallets.find? fun w =>
      w.userId == userId && w.assetTypeId == assetTypeId with
  | some w => (w, s)
  | none =>
    let w : WalletRec := { id := freshId, userId := userId, assetTypeId := assetTypeId }
    (w, { s with wallets := s.wallets ++ [w] })

/-- `user.findFirstOrThrow` on `isSystem: true` resolves to the first
system user of the table. -/
def firstSystemUser (s : Store) : Option UserRec :=
  s.users.find? fun u => u.isSystem

/-! ### LockCoordinator (lockWalletsInOrder)

`const sorted = [...walletIds].sort(); for (const id of sorted) ... FOR
UPDATE` — the function's observable behaviour is the sequence of ids it
locks, modelled as the ascending sort of the input list (a copy, made
with the spread operator, sorted by the JS default comparator). -/

/-- Insert a wallet id into an ascending list. -/
def insertAsc (x : String) : List String → List String
  | [] => [x]
  | y :: ys => if strLeb x y then x :: y :: ys else y :: insertAsc x ys

/-- Ascending sort of a list of wallet ids. -/
def sortAsc : List String → List String
  | [] => []
  | x :: xs => insertAsc x (sortAsc xs)

/-- The sequence of row locks taken by `lockWalletsInOrder`. -/
def lockWalletsInOrder (walletIds : List String) : List String :=
  sortAsc walletIds

/-- The lock sequence claimed by the spec: the *distinct* wallet
identifiers in ascending lexical order, each locked once. -/
def claimLockSequence (walletIds : List String) : List String :=
  sortAsc walletIds.dedup

/-! ### Errors, results, requests -/

/-- The errors an operation can raise: the two explicit `throw new
Error(...)` sites of walletService.ts and the two Prisma
known-request-error codes distinguished by errorHandler.ts.
`insufficientBalance` carries the available and required amounts the
thrown message interpolates. -/
inductive OpError
  | amountNotPositive
  | recordNotFound
  | insufficientBalance (available required : Int)
  | uniqueKeyViolation
deriving DecidableEq, Repr

/-- The result object of topupWallet / issueBonus / spendCredits: the
union of the fields the three return sites produce (absent fields are
`none`).  `remainingBalance` is the `toFixed(4)` string of spendCredits;
`amount` is the raw request amount echoed on fresh success. -/
structure TxResult where
  transactionId : String
  amount : Option Int
  remainingBalance : Option String
  idempotent : Bool
  message : Option String
deriving DecidableEq, Repr

/-- The replay result:
`{ message: 'Duplicate request - returning original result',
idempotent: true, transactionId: existing.transactionId }`. -/
def replayResult (transactionId : String) : TxResult :=
  { transactionId := transactionId, amount := none, remainingBalance := none,
    idempotent := true,
    message := some "Duplicate request - returning original result" }

/-- TopupRequest / BonusRequest / SpendRequest of src/types/index.ts —
the three interfaces have identical fields. -/
structure WalletRequest where
  userId : String
  assetTypeId : String
  amount : Int
  idempotencyKey : String
  description : Option String
deriving DecidableEq, Repr

/-- The ids Prisma would generate during one operation: for the user
wallet and treasury wallet upserts (used only if the row is created),
the transaction row and the ledger-entry row. -/
structure FreshIds where
  userWalletId : String
  treasuryWalletId : String
  transactionId : String
  entryId : String
deriving DecidableEq, Repr

/-- `prisma.ledgerEntry.findUnique({ where: { idempotencyKey } })`. -/
def findByKey (s : Store) (k : String) : Option LedgerEntry :=
  s.entries.find? fun e => e.idempotencyKey == some k

/-- `ledgerEntry.create`: the unique index
`LedgerEntry_idempotencyKey_key` rejects a second row under the same
key with Prisma error P2002. -/
def createLedgerEntry (s : Store) (e : LedgerEntry) : Except OpError Store :=
  match e.idempotencyKey with
  | some k =>
    if s.entries.any fun e2 => e2.idempotencyKey == some k then
      .error .uniqueKeyViolation
    else
      .ok { s with entries := s.entries ++ [e] }
  | none => .ok { s with entries := s.entries ++ [e] }

/-- `transaction.update({ where: { id }, data: { status } })`. -/
def updateTransactionStatus (s : Store) (transactionId : String) (st : TxStatus) : Store :=
  { s with transactions := s.transactions.map fun t =>
      if t.id == transactionId then { t with status := st } else t }

/-- `getTreasuryWallet`: find the system user (`findFirstOrThrow`, P2025
on absence) and resolve its wallet for the asset. -/
def getTreasuryWallet (s : Store) (assetTypeId freshId : String) :
    Except OpError (WalletRec × Store) :=
  match firstSystemUser s with
  | none => .error .recordNotFound
  | some systemUser => .ok (getOrCreateWallet s systemUser.id assetTypeId freshId)

/-- The shared opening of each transaction body:
`const [userWallet, treasuryWallet] = await Promise.all([
getOrCreateWallet(tx, userId, assetTypeId), getTreasuryWallet(tx,
assetTypeId)])` — both upserts run on the same transaction connection,
so their effects apply in sequence to the same store. -/
def resolveWallets (s : Store) (req : WalletRequest) (ids : FreshIds) :
    Except OpError (WalletRec × WalletRec × Store) :=
  match getOrCreateWallet s req.userId req.assetTypeId ids.userWalletId with
  | (userWallet, s1) =>
    match getTreasuryWallet s1 req.assetTypeId ids.treasuryWalletId with
    | .error e => .error e
    | .ok (treasuryWallet, s2) => .ok (userWallet, treasuryWallet, s2)

/-! ### TOPUP -/

/-- The `prisma.$transaction` body of topupWallet. -/
def topupTxBody (s : Store) (req : WalletRequest) (ids : FreshIds) :
    Except OpError (TxResult × Store) :=
  match resolveWallets s req ids with
  | .error e => .error e
  | .ok (userWallet, treasuryWallet, s2) =>
    let locks := lockWalletsInOrder [userWallet.id, treasuryWallet.id]
    let txn : TransactionRec :=
      { id := ids.transactionId, type := .TOPUP, status := .COMPLETED,
        description := some (req.description.getD
          ("Top-up of " ++ toString req.amount ++ " credits")) }
    let s3 := { s2 with transactions := s2.transactions ++ [txn] }
    let entry : LedgerEntry :=
      { id := ids.entryId, transactionId := txn.id,
        assetTypeId := req.assetTypeId,
        debitWalletId := treasuryWallet.id,
        creditWalletId := userWallet.id,
        amount := req.amount, transactionType := .TOPUP,
        description := some (req.description.getD "Top-up purchase"),
        idempotencyKey := some req.idempotencyKey }
    match createLedgerEntry s3 entry with
    | .error e => .error e
    | .ok s4 =>
      let s5 := updateTransactionStatus s4 txn.id .COMPLETED
      let _ := locks
      .ok ({ transactionId := txn.id, amount := some req.amount,
             remainingBalance := none, idempotent := false,
             message := none }, s5)

/-- `topupWallet`: validation, idempotency fast path, then the atomic
unit (which rolls back wholly on error). -/
def topupWallet (s : Store) (req : WalletRequest) (ids : FreshIds) :
    Except OpError TxResult × Store :=
  if req.amount ≤ 0 then (.error .amountNotPositive, s)
  else
    match findByKey s req.idempotencyKey with
    | some existing => (.ok (replayResult existing.transactionId), s)
    | none =>
      match topupTxBody s req ids with
      | .ok (res, sFinal) => (.ok res, sFinal)
      | .error e => (.error e, s)

/-! ### BONUS -/

/-- The `prisma.$transaction` body of issueBonus (same direction as
topup, transaction created PENDING then updated to COMPLETED). -/
def issueBonusTxBody (s : Store) (req : WalletRequest) (ids : FreshIds) :
    Except OpError (TxResult × Store) :=
  match resolveWallets s req ids with
  | .error e => .error e
  | .ok (userWallet, treasuryWallet, s2) =>
    let locks := lockWalletsInOrder [userWallet.id, treasuryWallet.id]
    let txn : TransactionRec :=
      { id := ids.transactionId, type := .BONUS, status := .PENDING,
        description := some (req.description.getD
          ("Bonus of " ++ toString req.amount ++ " credits")) }
    let s3 := { s2 with transactions := s2.transactions ++ [txn] }
    let entry : LedgerEntry :=
      { id := ids.entryId, transactionId := txn.id,
        assetTypeId := req.assetTypeId,
        debitWalletId := treasuryWallet.id,
        creditWalletId := userWallet.id,
        amount := req.amount, transactionType := .BONUS,
        description := some (req.description.getD "Bonus/incentive credit"),
        idempotencyKey := some req.idempotencyKey }
    match createLedgerEntry s3 entry with
    | .error e => .error e
    | .ok s4 =>
      let s5 := updateTransactionStatus s4 txn.id .COMPLETED
      let _ := locks
      .ok ({ transactionId := txn.id, amount := some req.amount,
             remainingBalance := none, idempotent := false,
             message := none }, s5)

/-- `issueBonus`. -/
def issueBonus (s : Store) (req : WalletRequest) (ids : FreshIds) :
    Except OpError TxResult × Store :=
  if req.amount ≤ 0 then (.error .amountNotPositive, s)
  else
    match findByKey s req.idempotencyKey with
    | some existing => (.ok (replayResult existing.transactionId), s)
    | none =>
      match issueBonusTxBody s req ids with
      | .ok (res, sFinal) => (.ok res, sFinal)
      | .error e => (.error e, s)

/-! ### Fixed-point rendering (Decimal.toFixed(4)) -/

/-- Left-pad a digit string with zeros to four places. -/
def padToFour (digits : String) : String :=
  String.mk (List.replicate (4 - digits.length) '0') ++ digits

/-- `Decimal.prototype.toFixed(4)` on a value held as an `Int` in units
of 10⁻⁴: sign, integer part, dot, four fractional digits. -/
def formatFixed4 (v : Int) : String :=
  let n := v.natAbs
  (if v < 0 then "-" else "") ++ toString (n / 10000) ++ "." ++
    padToFour (toString (n % 10000))

/-! ### SPEND -/

/-- The `prisma.$transaction` body of spendCredits: balance is
recomputed inside the unit, with the wallet rows locked, and gates the
transfer. -/
def spendTxBody (s : Store) (req : WalletRequest) (ids : FreshIds) :
    Except OpError (TxResult × Store) :=
  match resolveWallets s req ids with
  | .error e => .error e
  | .ok (userWallet, treasuryWallet, s2) =>
    let locks := lockWalletsInOrder [userWallet.id, treasuryWallet.id]
    let balance := computeBalance s2 userWallet.id
    if balance < req.amount then
      .error (.insufficientBalance balance req.amount)
    else
      let txn : TransactionRec :=
        { id := ids.transactionId, type := .SPEND, status := .PENDING,
          description := some (req.description.getD
            ("Spend of " ++ toString req.amount ++ " credits")) }
      let s3 := { s2 with transactions := s2.transactions ++ [txn] }
      let entry : LedgerEntry :=
        { id := ids.entryId, transactionId := txn.id,
          assetTypeId := req.assetTypeId,
          debitWalletId := userWallet.id,
          creditWalletId := treasuryWallet.id,
          amount := req.amount, transactionType := .SPEND,
          description := some (req.description.getD "In-app purchase"),
          idempotencyKey := some req.idempotencyKey }
      match createLedgerEntry s3 entry with
      | .error e => .error e
      | .ok s4 =>
        let s5 := updateTransactionStatus s4 txn.id .COMPLETED
        let _ := locks
        .ok ({ transactionId := txn.id, amount := some req.amount,
               remainingBalance := some (formatFixed4 (balance - req.amount)),
               idempotent := false, message := none }, s5)

/-- `spendCredits`. -/
def spendCredits (s : Store) (req : WalletRequest) (ids : FreshIds) :
    Except OpError TxResult × Store :=
  if req.amount ≤ 0 then (.error .amountNotPositive, s)
  else
    match findByKey s req.idempotencyKey with
    | some existing => (.ok (replayResult existing.transactionId), s)
    | none =>
      match spendTxBody s req ids with
      | .ok (res, sFinal) => (.ok res, sFinal)
      | .error e => (.error e, s)

/-! ### Query: getBalance -/

/-- BalanceResponse of src/types/index.ts. -/
structure BalanceResponse where
  userId : String
  assetTypeId : String
  assetName : String
  assetSymbol : String
  balance : String
deriving DecidableEq, Repr

/-- `getBalance`: resolve the wallet; absent wallet means balance
"0.0000" (after confirming the asset type exists, `findUniqueOrThrow`);
an existing wallet's balance is derived and rendered with
`toFixed(4)`.  The function only reads, so it returns the store it was
given.  The `include: assetType` join is the lookup of the wallet's
asset row. -/
def getBalance (s : Store) (userId assetTypeId : String) :
    Except OpError BalanceResponse × Store :=
  match s.wallets.find? fun w =>
      w.userId == userId && w.assetTypeId == assetTypeId with
  | none =>
    match s.assetTypes.find? fun a => a.id == assetTypeId with
    | none => (.error .recordNotFound, s)
    | some assetType =>
      (.ok { userId := userId, assetTypeId := assetTypeId,
             assetName := assetType.name, assetSymbol := assetType.symbol,
             balance := "0.0000" }, s)
  | some wallet =>
    match s.assetTypes.find? fun a => a.id == wallet.assetTypeId with
    | none => (.error .recordNotFound, s)
    | some assetType =>
      (.ok { userId := userId, assetTypeId := assetTypeId,
             assetName := assetType.name, assetSymbol := assetType.symbol,
             balance := formatFixed4 (computeBalance s wallet.id) }, s)

/-! ### errorHandler (src/middleware/errorHandler.ts) -/

/-- The JSON-and-status response the error middleware sends. -/
structure HttpResponse where
  status : Nat
  success : Bool
  error : Option String
deriving DecidableEq, Repr

/-- The message of the `Insufficient balance` throw site
(`Available` is rendered with `toFixed(4)`, `Required` is the raw
request amount, integral for amounts at scale 0). -/
def insufficientBalanceMessage (available required : Int) : String :=
  "Insufficient balance. Available: " ++ formatFixed4 available ++
    ", Required: " ++
    (if required % 10000 == 0 then toString (required / 10000)
     else formatFixed4 required)

/-- `errorHandler`: P2002 becomes 409, P2025 becomes 404, a message
containing `Insufficient balance` becomes 422, any other `Error`
becomes 500 with its message. -/
def errorHandler : OpError → HttpResponse
  | .uniqueKeyViolation =>
    { status := 409, success := false, error := some "Duplicate request detected" }
  | .recordNotFound =>
    { status := 404, success := false, error := some "Record not found" }
  | .insufficientBalance available required =>
    { status := 422, success := false,
      error := some (insufficientBalanceMessage available required) }
  | .amountNotPositive =>
    { status := 500, success := false, error := some "Amount must be positive" }

/-! ### Controller layer (src/controllers/walletController.ts) -/

/-- The zod TopupSchema / BonusSchema / SpendSchema constraints the
model carries: `amount: z.number().positive()` and `idempotencyKey:
z.string().min(1).max(255)` (uuid shape checks on the id fields are not
modelled: the ids are opaque strings here). -/
def schemaAccepts (req : WalletRequest) : Prop :=
  0 < req.amount ∧ 1 ≤ req.idempotencyKey.length ∧ req.idempotencyKey.length ≤ 255

instance (req : WalletRequest) : Decidable (schemaAccepts req) := by
  unfold schemaAccepts; infer_instance

/-- The 400 response a ZodError produces. -/
def zodValidationResponse : HttpResponse :=
  { status := 400, success := false, error := some "Validation error" }

/-- What an endpoint sends back. -/
inductive ApiOutcome
  | ok (status : Nat) (result : TxResult)
  | err (resp : HttpResponse)
deriving DecidableEq, Repr

/-- The three mutating endpoints dispatch on the same service calls. -/
inductive OpKind
  | topup
  | bonus
  | spend
deriving DecidableEq, Repr

/-- Dispatch an operation kind to its service function. -/
def runOp (k : OpKind) (s : Store) (req : WalletRequest) (ids : FreshIds) :
    Except OpError TxResult × Store :=
  match k with
  | .topup => topupWallet s req ids
  | .bonus => issueBonus s req ids
  | .spend => spendCredits s req ids

/-- A controller endpoint: parse the body against the schema (ZodError
→ 400 before any service call), run the service, send 200 for a replay,
201 for a fresh success, and route thrown errors through
`errorHandler`. -/
def endpointRun (k : OpKind) (s : Store) (req : WalletRequest) (ids : FreshIds) :
    ApiOutcome × Store :=
  if schemaAccepts req then
    match runOp k s req ids with
    | (.ok r, s2) => (.ok (if r.idempotent then 200 else 201) r, s2)
    | (.error e, s2) => (.err (errorHandler e), s2)
  else (.err zodValidationResponse, s)

/-! ### Sequences of operations -/

/-- One inbound mutation request with the ids Prisma would mint for
it. -/
structure OpCall where
  kind : OpKind
  req : WalletRequest
  ids : FreshIds
deriving DecidableEq, Repr

/-- Run one call against a store. -/
def applyCall (s : Store) (c : OpCall) : Except OpError TxResult × Store :=
  runOp c.kind s c.req c.ids

/-- The store after a sequence of calls (a failed call leaves the store
unchanged, its unit having rolled back). -/
def runCalls (s : Store) : List OpCall → Store
  | [] => s
  | c :: cs => runCalls (applyCall s c).2 cs

/-- Did the call succeed (fresh application or replay)? -/
def acceptedB (s : Store) (c : OpCall) : Bool :=
  match (applyCall s c).1 with
  | .ok _ => true
  | .error _ => false

/-! ### Store well-formedness and id freshness -/

/-- The wallet primary keys. -/
def walletIds (s : Store) : List String := s.wallets.map fun w => w.id

/-- Well-formed store: wallet primary keys are distinct (the `Wallet`
table's primary-key constraint). -/
def WFStore (s : Store) : Prop := (walletIds s).Nodup

instance (s : Store) : Decidable (WFStore s) := by
  unfold WFStore; infer_instance

/-- The ids minted for one call are fresh: the candidate wallet ids
collide neither with stored wallets nor with each other. -/
def FreshFor (s : Store) (ids : FreshIds) : Prop :=
  ids.userWalletId ∉ walletIds s ∧ ids.treasuryWalletId ∉ walletIds s ∧
    ids.userWalletId ≠ ids.treasuryWalletId

instance (s : Store) (ids : FreshIds) : Decidable (FreshFor s ids) := by
  unfold FreshFor; infer_instance

/-- Freshness along a whole sequence of calls. -/
def StepFresh : Store → List OpCall → Prop
  | _, [] => True
  | s, c :: cs => FreshFor s c.ids ∧ StepFresh (applyCall s c).2 cs

instance instDecidableStepFresh (s : Store) :
    (cs : List OpCall) → Decidable (StepFresh s cs)
  | [] => .isTrue trivial
  | c :: cs =>
    have : Decidable (StepFresh (applyCall s c).2 cs) :=
      instDecidableStepFresh (applyCall s c).2 cs
    inferInstanceAs (Decidable (_ ∧ _))

/-- The `prisma.$transaction` body of the operation of each kind. -/
def opTxBody (k : OpKind) (s : Store) (req : WalletRequest) (ids : FreshIds) :
    Except OpError (TxResult × Store) :=
  match k with
  | .topup => topupTxBody s req ids
  | .bonus => issueBonusTxBody s req ids
  | .spend => spendTxBody s req ids

/-! ### The idempotency race (two requests past the fast path)

`runOpRaced k sCheck sCommit` is the operation of kind `k` with the
fast-path lookup evaluated against `sCheck`, the store at check time,
while the atomic unit runs against `sCommit`, the store at commit time.
When another request carrying the same key commits between the two
moments, `sCommit` contains its entry although `sCheck` did not.
`runOpRaced k s s` is exactly `runOp k s`. -/
def runOpRaced (k : OpKind) (sCheck sCommit : Store) (req : WalletRequest)
    (ids : FreshIds) : Except OpError TxResult × Store :=
  if req.amount ≤ 0 then (.error .amountNotPositive, sCheck)
  else
    match findByKey sCheck req.idempotencyKey with
    | some existing => (.ok (replayResult existing.transactionId), sCheck)
    | none =>
      match opTxBody k sCommit req ids with
      | .ok (res, sFinal) => (.ok res, sFinal)
      | .error e => (.error e, sCommit)

/-! ### Raw request amounts and toFixed(4) quantization

The request body's `amount` is an arbitrary decimal number.  The two
validation gates — zod's `z.number().positive()` and the service's
`if (amount <= 0) throw` — test the *raw* amount, while the amount a
`ledgerEntry.create` persists is `new Decimal(amount).toFixed(4)`,
quantized to the DECIMAL(20,4) scale with decimal.js's default
ROUND_HALF_UP.  A raw amount in (0, 0.00005) therefore passes both
gates yet persists with stored amount 0.0000. -/

/-- `new Decimal(q).toFixed(4)` as a value in units of 10⁻⁴: for the
accepted domain 0 < q, ROUND_HALF_UP is ⌊q·10⁴ + 1/2⌋. -/
def toFixed4HalfUp (q : ℚ) : Int := ⌊q * 10000 + 1 / 2⌋

/-- The request the persistence layer effectively sees for a raw
amount `q`: its amount field holds the quantized scale-10⁻⁴ value. -/
def rawToReq (userId assetTypeId : String) (q : ℚ) (key : String)
    (desc : Option String) : WalletRequest :=
  { userId := userId, assetTypeId := assetTypeId,
    amount := toFixed4HalfUp q, idempotencyKey := key,
    description := desc }

/-- An operation on a raw request amount `q`: the validation gate tests
the raw amount, the body persists the quantized one.  (On success the
payload's amount field carries the quantized value here, where the
source echoes the raw number back; no claim reads that echo.) -/
def runOpRaw (k : OpKind) (s : Store) (userId assetTypeId : String)
    (q : ℚ) (key : String) (desc : Option String) (ids : FreshIds) :
    Except OpError TxResult × Store :=
  if q ≤ 0 then (.error .amountNotPositive, s)
  else
    match findByKey s key with
    | some existing => (.ok (replayResult existing.transactionId), s)
    | none =>
      match opTxBody k s (rawToReq userId assetTypeId q key desc) ids with
      | .ok (res, sFinal) => (.ok res, sFinal)
      | .error e => (.error e, s)

/-- The ledger entry a fresh topup writes. -/
def topupEntry (req : WalletRequest) (ids : FreshIds) (uw tw : WalletRec) :
    LedgerEntry :=
  { id := ids.entryId, transactionId := ids.transactionId,
    assetTypeId := req.assetTypeId,
    debitWalletId := tw.id, creditWalletId := uw.id,
    amount := req.amount, transactionType := .TOPUP,
    description := some (req.description.getD "Top-up purchase"),
    idempotencyKey := some req.idempotencyKey }

/-- The ledger entry a fresh bonus writes. -/
def bonusEntry (req : WalletRequest) (ids : FreshIds) (uw tw : WalletRec) :
    LedgerEntry :=
  { id := ids.entryId, transactionId := ids.transactionId,
    assetTypeId := req.assetTypeId,
    debitWalletId := tw.id, creditWalletId := uw.id,
    amount := req.amount, transactionType := .BONUS,
    description := some (req.description.getD "Bonus/incentive credit"),
    idempotencyKey := some req.idempotencyKey }

/-- The ledger entry a fresh spend writes: direction reversed. -/
def spendEntry (req : WalletRequest) (ids : FreshIds) (uw tw : WalletRec) :
    LedgerEntry :=
  { id := ids.entryId, transactionId := ids.transactionId,
    assetTypeId := req.assetTypeId,
    debitWalletId := uw.id, creditWalletId := tw.id,
    amount := req.amount, transactionType := .SPEND,
    description := some (req.description.getD "In-app purchase"),
    idempotencyKey := some req.idempotencyKey }

/-- The ledger entry the operation of each kind writes. -/
def opEntry (k : OpKind) (req : WalletRequest) (ids : FreshIds)
    (uw tw : WalletRec) : LedgerEntry :=
  match k with
  | .topup => topupEntry req ids uw tw
  | .bonus => bonusEntry req ids uw tw
  | .spend => spendEntry req ids uw tw

/-- Number of committed entries carrying a given idempotency key. -/
def countKey (s : Store) (k : String) : Nat :=
  (s.entries.filter fun e => e.idempotencyKey == some k).length

/-- The store after submitting the same request `n` more times. -/
def repeatOp (k : OpKind) (req : WalletRequest) (idsf : Nat → FreshIds) :
    Nat → Store → Store
  | 0, s => s
  | n + 1, s => repeatOp k req idsf n (runOp k s req (idsf n)).2

instance {e a : Type} [DecidableEq e] [DecidableEq a] : DecidableEq (Except e a) :=
  fun x y =>
  match x, y with
  | .error u, .error v =>
    if h : u = v then .isTrue (by rw [h]) else .isFalse (by simp [h])
  | .ok u, .ok v =>
    if h : u = v then .isTrue (by rw [h]) else .isFalse (by simp [h])
  | .error _, .ok _ => .isFalse (by simp)
  | .ok _, .error _ => .isFalse (by simp)

/-- The transaction type an operation kind records. -/
def opTxType : OpKind → TransactionType
  | .topup => .TOPUP
  | .bonus => .BONUS
  | .spend => .SPEND

/-! ### Concrete fixtures

Small stores in the shape of the seed data (prisma/seed.ts), used to
instantiate the theorems on concrete inputs. -/

/-- A store with the treasury user, one ordinary user and their wallets
for one asset type; no ledger history yet. -/
def demoStore : Store :=
  { users := [{ id := "u-sys", username := "treasury",
                email := "treasury@system.internal", isSystem := true },
              { id := "u-alice", username := "alice",
                email := "alice@example.com", isSystem := false }],
    assetTypes := [{ id := "a-gold", name := "Gold Coins", symbol := "GC" }],
    wallets := [{ id := "w-tre", userId := "u-sys", assetTypeId := "a-gold" },
                { id := "w-ali", userId := "u-alice", assetTypeId := "a-gold" }],
    transactions := [],
    entries := [] }

/-- Fresh ids for a first call. -/
def demoIds1 : FreshIds :=
  { userWalletId := "fw-1", treasuryWalletId := "fw-2",
    transactionId := "tx-1", entryId := "en-1" }

/-- Fresh ids for a second call. -/
def demoIds2 : FreshIds :=
  { userWalletId := "fw-3", treasuryWalletId := "fw-4",
    transactionId := "tx-2", entryId := "en-2" }

/-- A store whose treasury wallet `w-tre` has a positive derived balance
(+100), funded by an entry debiting the ordinary user wallet `w-usr`. -/
def seededStore : Store :=
  { users := [{ id := "u-sys", username := "treasury",
                email := "treasury@system.internal", isSystem := true },
              { id := "u-x", username := "x", email := "x@example.com",
                isSystem := false }],
    assetTypes := [{ id := "a-gold", name := "Gold Coins", symbol := "GC" }],
    wallets := [{ id := "w-tre", userId := "u-sys", assetTypeId := "a-gold" },
                { id := "w-usr", userId := "u-x", assetTypeId := "a-gold" }],
    transactions := [],
    entries := [{ id := "e-0", transactionId := "tx-0", assetTypeId := "a-gold",
                  debitWalletId := "w-usr", creditWalletId := "w-tre",
                  amount := 100, transactionType := .TOPUP,
                  description := none, idempotencyKey := none }] }

/-- A SPEND issued by the treasury user itself: its wallet doubles as
the treasury wallet of the transfer. -/
def c2SpendCall : OpCall :=
  { kind := .spend,
    req := { userId := "u-sys", assetTypeId := "a-gold", amount := 50,
             idempotencyKey := "kc2-a", description := none },
    ids := { userWalletId := "f-1", treasuryWalletId := "f-2",
             transactionId := "ct-1", entryId := "ce-1" } }

/-- An ordinary TOPUP for user `u-x`, debiting the treasury wallet. -/
def c2TopupCall : OpCall :=
  { kind := .topup,
    req := { userId := "u-x", assetTypeId := "a-gold", amount := 150,
             idempotencyKey := "kc2-b", description := none },
    ids := { userWalletId := "f-3", treasuryWalletId := "f-4",
             transactionId := "ct-2", entryId := "ce-2" } }

/-- Calls used to instantiate the non-negativity theorem. -/
def c2WitnessCalls : List OpCall :=
  [{ kind := .topup,
     req := { userId := "u-alice", assetTypeId := "a-gold", amount := 500,
              idempotencyKey := "kc2-c", description := none },
     ids := demoIds1 },
   { kind := .spend,
     req := { userId := "u-alice", assetTypeId := "a-gold", amount := 200,
              idempotencyKey := "kc2-d", description := none },
     ids := demoIds2 }]

/-- A spend far above the (empty) balance. -/
def c1Req : WalletRequest :=
  { userId := "u-alice", assetTypeId := "a-gold", amount := 9999,
    idempotencyKey := "k-c1", description := none }

/-- A topup submitted repeatedly under one idempotency key. -/
def c3Req : WalletRequest :=
  { userId := "u-alice", assetTypeId := "a-gold", amount := 500,
    idempotencyKey := "k-c3", description := none }

/-- A topup two racing requests carry under one idempotency key. -/
def c4Req : WalletRequest :=
  { userId := "u-alice", assetTypeId := "a-gold", amount := 500,
    idempotencyKey := "k-c4", description := none }

/-- The store after the race winner commits. -/
def c4WinnerStore : Store := (topupWallet demoStore c4Req demoIds1).2

/-- The racing loser: a SPEND carrying the winner's idempotency key. -/
def c4LoserReq : WalletRequest :=
  { userId := "u-alice", assetTypeId := "a-gold", amount := 200,
    idempotencyKey := "k-c4", description := none }

/-- A plain topup. -/
def c5Req : WalletRequest :=
  { userId := "u-alice", assetTypeId := "a-gold", amount := 500,
    idempotencyKey := "k-c5", description := none }

/-- A topup issued by the treasury user itself. -/
def c7Req : WalletRequest :=
  { userId := "u-sys", assetTypeId := "a-gold", amount := 50,
    idempotencyKey := "k-c7", description := none }

/-- A topup issued by an ordinary user. -/
def c7wReq : WalletRequest :=
  { userId := "u-alice", assetTypeId := "a-gold", amount := 500,
    idempotencyKey := "k-c7w", description := none }

/-- A spend with a non-positive amount. -/
def c8Req : WalletRequest :=
  { userId := "u-alice", assetTypeId := "a-gold", amount := -5,
    idempotencyKey := "k-c8", description := none }

/-- The committed entry an original request wrote under key `k-orig`. -/
def c10Entry : LedgerEntry :=
  { id := "en-orig", transactionId := "tx-orig", assetTypeId := "a-gold",
    debitWalletId := "w-tre", creditWalletId := "w-ali", amount := 500,
    transactionType := .TOPUP, description := none,
    idempotencyKey := some "k-orig" }

/-- `demoStore` after that original request committed. -/
def c10Store : Store := { demoStore with entries := [c10Entry] }

/-! ## Lemmas: the lexicographic order -/

theorem charListLeb_cons_eq (a b : Char) (as bs : List Char) :
    charListLeb (a :: as) (b :: bs) =
      if a.toNat < b.toNat then true
      else if b.toNat < a.toNat then false
      else charListLeb as bs := rfl

theorem charListLeb_total (as bs : List Char) :
    charListLeb as bs = true ∨ charListLeb bs as = true := by
  induction as generalizing bs with
  | nil => left; rfl
  | cons a as ih =>
    cases bs with
    | nil => right; rfl
    | cons b bs =>
      rcases Nat.lt_trichotomy a.toNat b.toNat with h | h | h
      · left
        rw [charListLeb_cons_eq, if_pos h]
      · rcases ih bs with hle | hle
        · left
          rw [charListLeb_cons_eq, if_neg (by omega), if_neg (by omega)]
          exact hle
        · right
          rw [charListLeb_cons_eq, if_neg (by omega), if_neg (by omega)]
          exact hle
      · right
        rw [charListLeb_cons_eq, if_pos h]

theorem charListLeb_trans (as bs cs : List Char)
    (h1 : charListLeb as bs = true) (h2 : charListLeb bs cs = true) :
    charListLeb as cs = true := by
  induction as generalizing bs cs with
  | nil => rfl
  | cons a as ih =>
    cases bs with
    | nil => simp [charListLeb] at h1
    | cons b bs =>
      cases cs with
      | nil => simp [charListLeb] at h2
      | cons c cs =>
        rw [charListLeb_cons_eq] at h1 h2 ⊢
        rcases Nat.lt_trichotomy a.toNat b.toNat with hab | hab | hab
        · rcases Nat.lt_trichotomy b.toNat c.toNat with hbc | hbc | hbc
          · rw [if_pos (by omega)]
          · rw [if_pos (by omega)]
          · rw [if_neg (by omega), if_pos hbc] at h2
            exact absurd h2 (by simp)
        · rcases Nat.lt_trichotomy b.toNat c.toNat with hbc | hbc | hbc
          · rw [if_pos (by omega)]
          · rw [if_neg (by omega), if_neg (by omega)]
            rw [if_neg (by omega), if_neg (by omega)] at h1
            rw [if_neg (by omega), if_neg (by omega)] at h2
            exact ih bs cs h1 h2
          · rw [if_neg (by omega), if_pos hbc] at h2
            exact absurd h2 (by simp)
        · rw [if_neg (by omega), if_pos hab] at h1
          exact absurd h1 (by simp)

theorem charListLeb_antisymm (as bs : List Char)
    (h1 : charListLeb as bs = true) (h2 : charListLeb bs as = true) :
    as = bs := by
  induction as generalizing bs with
  | nil =>
    cases bs with
    | nil => rfl
    | cons b bs => simp [charListLeb] at h2
  | cons a as ih =>
    cases bs with
    | nil => simp [charListLeb] at h1
    | cons b bs =>
      rw [charListLeb_cons_eq] at h1 h2
      rcases Nat.lt_trichotomy a.toNat b.toNat with hab | hab | hab
      · rw [if_neg (by omega), if_pos hab] at h2
        exact absurd h2 (by simp)
      · rw [if_neg (by omega), if_neg (by omega)] at h1
        rw [if_neg (by omega), if_neg (by omega)] at h2
        have hc : a = b := Char.eq_of_val_eq (UInt32.ext hab)
        rw [hc, ih bs h1 h2]
      · rw [if_neg (by omega), if_pos hab] at h1
        exact absurd h1 (by simp)

theorem strLe_total (a b : String) : strLe a b ∨ strLe b a :=
  charListLeb_total a.data b.data

theorem strLe_trans (a b c : String) (h1 : strLe a b) (h2 : strLe b c) :
    strLe a c :=
  charListLeb_trans a.data b.data c.data h1 h2

theorem strLe_antisymm (a b : String) (h1 : strLe a b) (h2 : strLe b a) :
    a = b := by
  apply String.ext
  exact charListLeb_antisymm a.data b.data h1 h2

theorem strLeb_of_not_strLeb (a b : String) (h : ¬ strLeb a b = true) :
    strLeb b a = true := by
  rcases strLe_total a b with hle | hle
  · exact absurd hle h
  · exact hle

/-! ## Lemmas: the lock sequence -/

theorem insertAsc_perm (x : String) (l : List String) :
    List.Perm (insertAsc x l) (x :: l) := by
  induction l with
  | nil => exact .refl _
  | cons y ys ih =>
    unfold insertAsc
    split
    · exact .refl _
    · exact .trans (List.Perm.cons y ih) (List.Perm.swap x y ys)

theorem sortAsc_perm (l : List String) : List.Perm (sortAsc l) l := by
  induction l with
  | nil => exact .refl _
  | cons x xs ih =>
    exact .trans (insertAsc_perm x (sortAsc xs)) (List.Perm.cons x ih)

theorem insertAsc_sorted (x : String) (l : List String)
    (h : l.Sorted strLe) : (insertAsc x l).Sorted strLe := by
  induction l with
  | nil => simp [insertAsc, List.sorted_singleton]
  | cons y ys ih =>
    obtain ⟨hy, hys⟩ := List.sorted_cons.mp h
    unfold insertAsc
    split
    · rename_i hxy
      refine List.sorted_cons.mpr ⟨?_, h⟩
      intro z hz
      rcases List.mem_cons.mp hz with hz | hz
      · rw [hz]; exact hxy
      · exact strLe_trans x y z hxy (hy z hz)
    · rename_i hxy
      have hyx : strLe y x := strLeb_of_not_strLeb x y hxy
      refine List.sorted_cons.mpr ⟨?_, ih hys⟩
      intro z hz
      have hz2 : z ∈ x :: ys := (insertAsc_perm x ys).mem_iff.mp hz
      rcases List.mem_cons.mp hz2 with hz2 | hz2
      · rw [hz2]; exact hyx
      · exact hy z hz2

theorem sortAsc_sorted (l : List String) : (sortAsc l).Sorted strLe := by
  induction l with
  | nil => simp [sortAsc, List.Sorted]
  | cons x xs ih => exact insertAsc_sorted x (sortAsc xs) ih

theorem sortAsc_eq_of_perm (l1 l2 : List String) (h : List.Perm l1 l2) :
    sortAsc l1 = sortAsc l2 := by
  haveI : IsAntisymm String strLe := ⟨strLe_antisymm⟩
  refine List.eq_of_perm_of_sorted ?_ (sortAsc_sorted l1) (sortAsc_sorted l2)
  exact .trans (sortAsc_perm l1) (.trans h (sortAsc_perm l2).symm)

/-! ## Lemmas: balance derivation -/

theorem balanceOf_append_single (es : List LedgerEntry) (e : LedgerEntry)
    (w : String) :
    balanceOf (es ++ [e]) w =
      balanceOf es w + (if e.creditWalletId = w then e.amount else 0)
        - (if e.debitWalletId = w then e.amount else 0) := by
  unfold balanceOf
  simp only [List.filter_append, List.map_append, List.sum_append]
  by_cases h1 : e.creditWalletId = w <;> by_cases h2 : e.debitWalletId = w <;>
    simp [List.filter_cons, h1, h2, beq_iff_eq] <;> ring

theorem balanceOf_eq_specBalanceOf (es : List LedgerEntry) (w : String) :
    balanceOf es w = specBalanceOf es w := by
  induction es with
  | nil => rfl
  | cons e es ih =>
    unfold balanceOf specBalanceOf
    unfold balanceOf specBalanceOf at ih
    by_cases h1 : e.creditWalletId = w <;> by_cases h2 : e.debitWalletId = w <;>
      simp [List.filter_cons, h1, h2, beq_iff_eq] at ih ⊢ <;> omega

/-! ## Lemmas: wallet resolution -/

theorem wallet_id_injective (s : Store) (hWF : WFStore s) :
    ∀ w1 ∈ s.wallets, ∀ w2 ∈ s.wallets, w1.id = w2.id → w1 = w2 := by
  intro w1 h1 w2 h2 h
  exact List.inj_on_of_nodup_map hWF h1 h2 h

theorem getOrCreateWallet_shape (s : Store) (uid aid fid : String) :
    ((getOrCreateWallet s uid aid fid).2.entries = s.entries ∧
     (getOrCreateWallet s uid aid fid).2.users = s.users ∧
     (getOrCreateWallet s uid aid fid).2.transactions = s.transactions ∧
     (getOrCreateWallet s uid aid fid).2.assetTypes = s.assetTypes) ∧
    (getOrCreateWallet s uid aid fid).1.userId = uid ∧
    (getOrCreateWallet s uid aid fid).1 ∈ (getOrCreateWallet s uid aid fid).2.wallets ∧
    ((getOrCreateWallet s uid aid fid).2.wallets = s.wallets ∧
       (getOrCreateWallet s uid aid fid).1 ∈ s.wallets ∨
     (getOrCreateWallet s uid aid fid).2.wallets =
       s.wallets ++ [⟨fid, uid, aid⟩] ∧
       (getOrCreateWallet s uid aid fid).1 = ⟨fid, uid, aid⟩) := by
  unfold getOrCreateWallet
  split
  · rename_i w hw
    have hmem := List.mem_of_find?_eq_some hw
    have hpred := List.find?_some hw
    simp only [Bool.and_eq_true, beq_iff_eq] at hpred
    exact ⟨⟨rfl, rfl, rfl, rfl⟩, hpred.1, hmem, Or.inl ⟨rfl, hmem⟩⟩
  · refine ⟨⟨rfl, rfl, rfl, rfl⟩, rfl, ?_, Or.inr ⟨rfl, rfl⟩⟩
    simp

theorem firstSystemUser_congr (s1 s2 : Store) (h : s1.users = s2.users) :
    firstSystemUser s1 = firstSystemUser s2 := by
  unfold firstSystemUser
  rw [h]

theorem resolveWallets_ok (s : Store) (req : WalletRequest) (ids : FreshIds)
    (uw tw : WalletRec) (sR : Store)
    (h : resolveWallets s req ids = .ok (uw, tw, sR)) :
    sR.entries = s.entries ∧ sR.users = s.users ∧
    sR.transactions = s.transactions ∧ sR.assetTypes = s.assetTypes ∧
    uw.userId = req.userId ∧
    (∃ u, firstSystemUser s = some u ∧ tw.userId = u.id) ∧
    uw ∈ sR.wallets ∧ tw ∈ sR.wallets ∧
    (∀ w ∈ s.wallets, w ∈ sR.wallets) ∧
    (sR.wallets = s.wallets ∨
     sR.wallets = s.wallets ++ [⟨ids.userWalletId, req.userId, req.assetTypeId⟩] ∨
     (∃ sysId, sR.wallets = s.wallets ++
        [⟨ids.treasuryWalletId, sysId, req.assetTypeId⟩]) ∨
     (∃ sysId, sR.wallets = s.wallets ++
        [⟨ids.userWalletId, req.userId, req.assetTypeId⟩,
         ⟨ids.treasuryWalletId, sysId, req.assetTypeId⟩])) := by
  unfold resolveWallets at h
  rcases hg1 : getOrCreateWallet s req.userId req.assetTypeId ids.userWalletId
    with ⟨uw1, s1⟩
  rw [hg1] at h
  simp only [] at h
  obtain ⟨⟨he1, hu1, ht1, ha1⟩, huid1, hmem1, hsh1⟩ :=
    getOrCreateWallet_shape s req.userId req.assetTypeId ids.userWalletId
  rw [hg1] at he1 hu1 ht1 ha1 huid1 hmem1 hsh1
  simp only at he1 hu1 ht1 ha1 huid1 hmem1 hsh1
  cases htr : getTreasuryWallet s1 req.assetTypeId ids.treasuryWalletId with
  | error e => rw [htr] at h; simp at h
  | ok tr =>
    rw [htr] at h
    rcases tr with ⟨tw1, s2⟩
    simp only [Except.ok.injEq, Prod.mk.injEq] at h
    obtain ⟨huw, htw, hsR⟩ := h
    unfold getTreasuryWallet at htr
    cases hsys : firstSystemUser s1 with
    | none => rw [hsys] at htr; simp at htr
    | some sysUser =>
      rw [hsys] at htr
      simp only [Except.ok.injEq] at htr
      rcases hg2 : getOrCreateWallet s1 sysUser.id req.assetTypeId
        ids.treasuryWalletId with ⟨tw2, s3⟩
      rw [hg2] at htr
      obtain ⟨⟨he2, hu2, ht2, ha2⟩, huid2, hmem2, hsh2⟩ :=
        getOrCreateWallet_shape s1 sysUser.id req.assetTypeId ids.treasuryWalletId
      rw [hg2] at he2 hu2 ht2 ha2 huid2 hmem2 hsh2
      simp only at he2 hu2 ht2 ha2 huid2 hmem2 hsh2
      injection htr with htw2 hs32
      subst htw2 hs32
      have hsysS : firstSystemUser s = some sysUser := by
        rw [← firstSystemUser_congr s1 s (by rw [hu1]), hsys]
      refine ⟨?_, ?_, ?_, ?_, ?_, ⟨sysUser, hsysS, by rw [← htw]; exact huid2⟩,
        ?_, ?_, ?_, ?_⟩
      · rw [← hsR, he2, he1]
      · rw [← hsR, hu2, hu1]
      · rw [← hsR, ht2, ht1]
      · rw [← hsR, ha2, ha1]
      · rw [← huw]; exact huid1
      · rw [← hsR, ← huw]
        rcases hsh2 with ⟨hw2, _⟩ | ⟨hw2, _⟩
        · rw [hw2]; exact hmem1
        · rw [hw2]; exact List.mem_append_left _ hmem1
      · rw [← hsR, ← htw]; exact hmem2
      · intro w hw
        rw [← hsR]
        have hw1 : w ∈ s1.wallets := by
          rcases hsh1 with ⟨hws, _⟩ | ⟨hws, _⟩
          · rw [hws]; exact hw
          · rw [hws]; exact List.mem_append_left _ hw
        rcases hsh2 with ⟨hws, _⟩ | ⟨hws, _⟩
        · rw [hws]; exact hw1
        · rw [hws]; exact List.mem_append_left _ hw1
      · rw [← hsR]
        rcases hsh1 with ⟨hws1, _⟩ | ⟨hws1, hid1⟩ <;>
          rcases hsh2 with ⟨hws2, _⟩ | ⟨hws2, hid2⟩
        · left; rw [hws2, hws1]
        · right; right; left
          exact ⟨sysUser.id, by rw [hws2, hws1]⟩
        · right; left; rw [hws2, hws1]
        · right; right; right
          refine ⟨sysUser.id, ?_⟩
          rw [hws2, hws1, List.append_assoc]
          rfl

theorem resolveWallets_WF (s : Store) (req : WalletRequest) (ids : FreshIds)
    (uw tw : WalletRec) (sR : Store)
    (h : resolveWallets s req ids = .ok (uw, tw, sR))
    (hWF : WFStore s) (hids : FreshFor s ids) : WFStore sR := by
  obtain ⟨-, -, -, -, -, -, -, -, -, hshape⟩ := resolveWallets_ok s req ids uw tw sR h
  obtain ⟨hfu, hft, hne⟩ := hids
  unfold WFStore at hWF ⊢
  unfold walletIds at hWF hfu hft ⊢
  rcases hshape with hw | hw | ⟨sysId, hw⟩ | ⟨sysId, hw⟩ <;> rw [hw]
  · exact hWF
  · rw [List.map_append]
    refine List.Nodup.append hWF (by simp) ?_
    intro x hx hy
    simp at hy
    rw [hy] at hx
    exact hfu hx
  · rw [List.map_append]
    refine List.Nodup.append hWF (by simp) ?_
    intro x hx hy
    simp at hy
    rw [hy] at hx
    exact hft hx
  · rw [List.map_append]
    refine List.Nodup.append hWF (by simp [hne]) ?_
    intro x hx hy
    simp at hy
    rcases hy with hy | hy <;> rw [hy] at hx
    · exact hfu hx
    · exact hft hx

theorem resolveWallets_id_inj (s : Store) (req : WalletRequest) (ids : FreshIds)
    (uw tw : WalletRec) (sR : Store)
    (h : resolveWallets s req ids = .ok (uw, tw, sR))
    (hWF : WFStore s) (hids : FreshFor s ids) (w : WalletRec)
    (hw : w ∈ s.wallets) :
    (uw.id = w.id → uw = w) ∧ (tw.id = w.id → tw = w) ∧
    (uw.userId ≠ tw.userId → uw.id ≠ tw.id) := by
  have hWFR := resolveWallets_WF s req ids uw tw sR h hWF hids
  obtain ⟨-, -, -, -, -, -, huwm, htwm, hsub, -⟩ :=
    resolveWallets_ok s req ids uw tw sR h
  have hwR := hsub w hw
  refine ⟨fun hid => wallet_id_injective sR hWFR uw huwm w hwR hid,
    fun hid => wallet_id_injective sR hWFR tw htwm w hwR hid,
    fun hneq hid => hneq ?_⟩
  rw [wallet_id_injective sR hWFR uw huwm tw htwm hid]

theorem resolveWallets_uw_tw_ne (s : Store) (req : WalletRequest)
    (ids : FreshIds) (uw tw : WalletRec) (sR : Store)
    (h : resolveWallets s req ids = .ok (uw, tw, sR))
    (hWF : WFStore s) (hids : FreshFor s ids)
    (hneq : uw.userId ≠ tw.userId) : uw.id ≠ tw.id := by
  have hWFR := resolveWallets_WF s req ids uw tw sR h hWF hids
  obtain ⟨-, -, -, -, -, -, huwm, htwm, -, -⟩ :=
    resolveWallets_ok s req ids uw tw sR h
  intro hid
  exact hneq (by rw [wallet_id_injective sR hWFR uw huwm tw htwm hid])

theorem updateTransactionStatus_other (s : Store) (tid : String) (st : TxStatus) :
    (updateTransactionStatus s tid st).entries = s.entries ∧
    (updateTransactionStatus s tid st).wallets = s.wallets ∧
    (updateTransactionStatus s tid st).users = s.users ∧
    (updateTransactionStatus s tid st).assetTypes = s.assetTypes :=
  ⟨rfl, rfl, rfl, rfl⟩

theorem createLedgerEntry_ok (s : Store) (e : LedgerEntry) (s4 : Store)
    (h : createLedgerEntry s e = .ok s4) :
    s4.entries = s.entries ++ [e] ∧ s4.wallets = s.wallets ∧
    s4.users = s.users ∧ s4.transactions = s.transactions ∧
    s4.assetTypes = s.assetTypes := by
  unfold createLedgerEntry at h
  split at h
  · split at h
    · simp at h
    · simp only [Except.ok.injEq] at h
      rw [← h]
      exact ⟨rfl, rfl, rfl, rfl, rfl⟩
  · simp only [Except.ok.injEq] at h
    rw [← h]
    exact ⟨rfl, rfl, rfl, rfl, rfl⟩

theorem topupWallet_ok_inv (s : Store) (req : WalletRequest) (ids : FreshIds)
    (r : TxResult) (s2 : Store)
    (h : topupWallet s req ids = (.ok r, s2)) (hid : r.idempotent = false) :
    0 < req.amount ∧ findByKey s req.idempotencyKey = none ∧
    ∃ uw tw sR,
      resolveWallets s req ids = .ok (uw, tw, sR) ∧
      s2.entries = s.entries ++ [topupEntry req ids uw tw] ∧
      s2.wallets = sR.wallets ∧ s2.users = s.users ∧
      r = { transactionId := ids.transactionId, amount := some req.amount,
            remainingBalance := none, idempotent := false, message := none } := by
  unfold topupWallet at h
  split at h
  · simp at h
  · rename_i hamt
    split at h
    · rename_i existing hfind
      simp only [Prod.mk.injEq, Except.ok.injEq] at h
      rw [← h.1] at hid
      simp [replayResult] at hid
    · rename_i hfind
      split at h
      · rename_i res sFinal hbody
        simp only [Prod.mk.injEq, Except.ok.injEq] at h
        obtain ⟨hres2, hsF⟩ := h
        unfold topupTxBody at hbody
        split at hbody
        · simp at hbody
        · rename_i uw tw sR hresolve
          simp only [] at hbody
          split at hbody
          · simp at hbody
          · rename_i s4 hce
            simp only [Except.ok.injEq, Prod.mk.injEq] at hbody
            obtain ⟨hres3, hs5⟩ := hbody
            obtain ⟨hent4, hwal4, husr4, htr4, hat4⟩ :=
              createLedgerEntry_ok _ _ _ hce
            obtain ⟨hentR, husrR, -, -, -, -, -, -, -, -⟩ :=
              resolveWallets_ok s req ids uw tw sR hresolve
            refine ⟨by omega, hfind, uw, tw, sR, hresolve, ?_, ?_, ?_, ?_⟩
            · rw [← hsF, ← hs5]
              show s4.entries = _
              rw [hent4]
              show sR.entries ++ [topupEntry req ids uw tw] = _
              rw [hentR]
            · rw [← hsF, ← hs5]
              show s4.wallets = _
              rw [hwal4]
            · rw [← hsF, ← hs5]
              show s4.users = _
              rw [husr4]
              show sR.users = _
              rw [husrR]
            · rw [← hres2, ← hres3]
      · simp at h

theorem issueBonus_ok_inv (s : Store) (req : WalletRequest) (ids : FreshIds)
    (r : TxResult) (s2 : Store)
    (h : issueBonus s req ids = (.ok r, s2)) (hid : r.idempotent = false) :
    0 < req.amount ∧ findByKey s req.idempotencyKey = none ∧
    ∃ uw tw sR,
      resolveWallets s req ids = .ok (uw, tw, sR) ∧
      s2.entries = s.entries ++ [bonusEntry req ids uw tw] ∧
      s2.wallets = sR.wallets ∧ s2.users = s.users ∧
      r = { transactionId := ids.transactionId, amount := some req.amount,
            remainingBalance := none, idempotent := false, message := none } := by
  unfold issueBonus at h
  split at h
  · simp at h
  · rename_i hamt
    split at h
    · rename_i existing hfind
      simp only [Prod.mk.injEq, Except.ok.injEq] at h
      rw [← h.1] at hid
      simp [replayResult] at hid
    · rename_i hfind
      split at h
      · rename_i res sFinal hbody
        simp only [Prod.mk.injEq, Except.ok.injEq] at h
        obtain ⟨hres2, hsF⟩ := h
        unfold issueBonusTxBody at hbody
        split at hbody
        · simp at hbody
        · rename_i uw tw sR hresolve
          simp only [] at hbody
          split at hbody
          · simp at hbody
          · rename_i s4 hce
            simp only [Except.ok.injEq, Prod.mk.injEq] at hbody
            obtain ⟨hres3, hs5⟩ := hbody
            obtain ⟨hent4, hwal4, husr4, htr4, hat4⟩ :=
              createLedgerEntry_ok _ _ _ hce
            obtain ⟨hentR, husrR, -, -, -, -, -, -, -, -⟩ :=
              resolveWallets_ok s req ids uw tw sR hresolve
            refine ⟨by omega, hfind, uw, tw, sR, hresolve, ?_, ?_, ?_, ?_⟩
            · rw [← hsF, ← hs5]
              show s4.entries = _
              rw [hent4]
              show sR.entries ++ [bonusEntry req ids uw tw] = _
              rw [hentR]
            · rw [← hsF, ← hs5]
              show s4.wallets = _
              rw [hwal4]
            · rw [← hsF, ← hs5]
              show s4.users = _
              rw [husr4]
              show sR.users = _
              rw [husrR]
            · rw [← hres2, ← hres3]
      · simp at h

theorem spendCredits_ok_inv (s : Store) (req : WalletRequest) (ids : FreshIds)
    (r : TxResult) (s2 : Store)
    (h : spendCredits s req ids = (.ok r, s2)) (hid : r.idempotent = false) :
    0 < req.amount ∧ findByKey s req.idempotencyKey = none ∧
    ∃ uw tw sR,
      resolveWallets s req ids = .ok (uw, tw, sR) ∧
      req.amount ≤ computeBalance s uw.id ∧
      s2.entries = s.entries ++ [spendEntry req ids uw tw] ∧
      s2.wallets = sR.wallets ∧ s2.users = s.users ∧
      r = { transactionId := ids.transactionId, amount := some req.amount,
            remainingBalance :=
              some (formatFixed4 (computeBalance s uw.id - req.amount)),
            idempotent := false, message := none } := by
  unfold spendCredits at h
  split at h
  · simp at h
  · rename_i hamt
    split at h
    · rename_i existing hfind
      simp only [Prod.mk.injEq, Except.ok.injEq] at h
      rw [← h.1] at hid
      simp [replayResult] at hid
    · rename_i hfind
      split at h
      · rename_i res sFinal hbody
        simp only [Prod.mk.injEq, Except.ok.injEq] at h
        obtain ⟨hres2, hsF⟩ := h
        unfold spendTxBody at hbody
        split at hbody
        · simp at hbody
        · rename_i uw tw sR hresolve
          simp only [] at hbody
          obtain ⟨hentR, husrR, -, -, -, -, -, -, -, -⟩ :=
            resolveWallets_ok s req ids uw tw sR hresolve
          have hcb : computeBalance sR uw.id = computeBalance s uw.id := by
            unfold computeBalance
            rw [hentR]
          split at hbody
          · simp at hbody
          · rename_i hbal
            split at hbody
            · simp at hbody
            · rename_i s4 hce
              simp only [Except.ok.injEq, Prod.mk.injEq] at hbody
              obtain ⟨hres3, hs5⟩ := hbody
              obtain ⟨hent4, hwal4, husr4, htr4, hat4⟩ :=
                createLedgerEntry_ok _ _ _ hce
              rw [hcb] at hbal
              refine ⟨by omega, hfind, uw, tw, sR, hresolve, by omega,
                ?_, ?_, ?_, ?_⟩
              · rw [← hsF, ← hs5]
                show s4.entries = _
                rw [hent4]
                show sR.entries ++ [spendEntry req ids uw tw] = _
                rw [hentR]
              · rw [← hsF, ← hs5]
                show s4.wallets = _
                rw [hwal4]
              · rw [← hsF, ← hs5]
                show s4.users = _
                rw [husr4]
                show sR.users = _
                rw [husrR]
              · rw [← hres2, ← hres3, hcb]
      · simp at h

/-! ## Lemmas: idempotency fast path and key counting -/

theorem countKey_zero_of_findByKey_none (s : Store) (k : String)
    (h : findByKey s k = none) : countKey s k = 0 := by
  unfold findByKey at h
  unfold countKey
  rw [List.length_eq_zero]
  exact List.filter_eq_nil_iff.mpr (List.find?_eq_none.mp h)

theorem findByKey_append_entry (s s2 : Store) (e : LedgerEntry) (k : String)
    (hent : s2.entries = s.entries ++ [e]) (hkey : e.idempotencyKey = some k)
    (hnone : findByKey s k = none) : findByKey s2 k = some e := by
  unfold findByKey at hnone ⊢
  rw [hent, List.find?_append, hnone, Option.none_or]
  simp [hkey]

theorem countKey_append_entry (s s2 : Store) (e : LedgerEntry) (k : String)
    (hent : s2.entries = s.entries ++ [e]) (hkey : e.idempotencyKey = some k) :
    countKey s2 k = countKey s k + 1 := by
  unfold countKey
  rw [hent, List.filter_append, List.length_append]
  simp [hkey]

theorem any_key_of_findByKey_some (s : Store) (k : String) (e : LedgerEntry)
    (h : findByKey s k = some e) :
    (s.entries.any fun e2 => e2.idempotencyKey == some k) = true := by
  unfold findByKey at h
  have hmem := List.mem_of_find?_eq_some h
  have hp := List.find?_some h
  exact List.any_eq_true.mpr ⟨e, hmem, hp⟩

/-- All three operations short-circuit on a fast-path hit: the lookup is
by idempotency key alone, the result replays the stored entry's
transaction id, and the store is untouched. -/
theorem runOp_replay (k : OpKind) (s : Store) (req : WalletRequest)
    (ids : FreshIds) (e : LedgerEntry)
    (hamt : 0 < req.amount)
    (hfind : findByKey s req.idempotencyKey = some e) :
    runOp k s req ids = (.ok (replayResult e.transactionId), s) := by
  cases k
  · show topupWallet s req ids = _
    unfold topupWallet
    rw [if_neg (by omega), hfind]
  · show issueBonus s req ids = _
    unfold issueBonus
    rw [if_neg (by omega), hfind]
  · show spendCredits s req ids = _
    unfold spendCredits
    rw [if_neg (by omega), hfind]

theorem repeatOp_fixed (k : OpKind) (req : WalletRequest)
    (idsf : Nat → FreshIds) (n : Nat) (s : Store) (e : LedgerEntry)
    (hamt : 0 < req.amount)
    (hfind : findByKey s req.idempotencyKey = some e) :
    repeatOp k req idsf n s = s := by
  induction n with
  | zero => rfl
  | succ n ih =>
    show repeatOp k req idsf n (runOp k s req (idsf n)).2 = s
    rw [runOp_replay k s req (idsf n) e hamt hfind]
    exact ih

/-! ## Lemmas: failed or replayed calls leave the store unchanged -/

theorem topupTxBody_idempotent_false (s : Store) (req : WalletRequest)
    (ids : FreshIds) (res : TxResult) (sF : Store)
    (h : topupTxBody s req ids = .ok (res, sF)) : res.idempotent = false := by
  unfold topupTxBody at h
  split at h
  · simp at h
  · simp only [] at h
    split at h
    · simp at h
    · simp only [Except.ok.injEq, Prod.mk.injEq] at h
      rw [← h.1]

theorem issueBonusTxBody_idempotent_false (s : Store) (req : WalletRequest)
    (ids : FreshIds) (res : TxResult) (sF : Store)
    (h : issueBonusTxBody s req ids = .ok (res, sF)) : res.idempotent = false := by
  unfold issueBonusTxBody at h
  split at h
  · simp at h
  · simp only [] at h
    split at h
    · simp at h
    · simp only [Except.ok.injEq, Prod.mk.injEq] at h
      rw [← h.1]

theorem spendTxBody_idempotent_false (s : Store) (req : WalletRequest)
    (ids : FreshIds) (res : TxResult) (sF : Store)
    (h : spendTxBody s req ids = .ok (res, sF)) : res.idempotent = false := by
  unfold spendTxBody at h
  split at h
  · simp at h
  · simp only [] at h
    split at h
    · simp at h
    · split at h
      · simp at h
      · simp only [Except.ok.injEq, Prod.mk.injEq] at h
        rw [← h.1]

theorem runOp_error_store (k : OpKind) (s : Store) (req : WalletRequest)
    (ids : FreshIds) (e : OpError) (s2 : Store)
    (h : runOp k s req ids = (.error e, s2)) : s2 = s := by
  cases k
  all_goals
    simp only [runOp] at h
  all_goals
    first
    | unfold topupWallet at h
    | unfold issueBonus at h
    | unfold spendCredits at h
  all_goals
    split at h
    · simp only [Prod.mk.injEq] at h
      exact h.2.symm
    · split at h
      · simp at h
      · split at h
        · simp at h
        · simp only [Prod.mk.injEq] at h
          exact h.2.symm

theorem runOp_ok_replay_store (k : OpKind) (s : Store) (req : WalletRequest)
    (ids : FreshIds) (r : TxResult) (s2 : Store)
    (h : runOp k s req ids = (.ok r, s2)) (hrep : r.idempotent = true) :
    s2 = s := by
  cases k
  · simp only [runOp] at h
    unfold topupWallet at h
    split at h
    · simp at h
    · split at h
      · simp only [Prod.mk.injEq, Except.ok.injEq] at h
        exact h.2.symm
      · split at h
        · rename_i res sF hbody
          simp only [Prod.mk.injEq, Except.ok.injEq] at h
          rw [← h.1] at hrep
          rw [topupTxBody_idempotent_false s req ids res sF hbody] at hrep
          simp at hrep
        · simp at h
  · simp only [runOp] at h
    unfold issueBonus at h
    split at h
    · simp at h
    · split at h
      · simp only [Prod.mk.injEq, Except.ok.injEq] at h
        exact h.2.symm
      · split at h
        · rename_i res sF hbody
          simp only [Prod.mk.injEq, Except.ok.injEq] at h
          rw [← h.1] at hrep
          rw [issueBonusTxBody_idempotent_false s req ids res sF hbody] at hrep
          simp at hrep
        · simp at h
  · simp only [runOp] at h
    unfold spendCredits at h
    split at h
    · simp at h
    · split at h
      · simp only [Prod.mk.injEq, Except.ok.injEq] at h
        exact h.2.symm
      · split at h
        · rename_i res sF hbody
          simp only [Prod.mk.injEq, Except.ok.injEq] at h
          rw [← h.1] at hrep
          rw [spendTxBody_idempotent_false s req ids res sF hbody] at hrep
          simp at hrep
        · simp at h

/-! ## Lemmas: non-negativity preservation -/

theorem applyCall_preserves (s : Store) (c : OpCall) (w : WalletRec)
    (hWF : WFStore s) (hids : FreshFor s c.ids) (hw : w ∈ s.wallets)
    (hsys : ∀ u, firstSystemUser s = some u → w.userId ≠ u.id)
    (hbal : 0 ≤ computeBalance s w.id) :
    0 ≤ computeBalance (applyCall s c).2 w.id ∧
    WFStore (applyCall s c).2 ∧ w ∈ (applyCall s c).2.wallets ∧
    (applyCall s c).2.users = s.users := by
  rcases hrun : runOp c.kind s c.req c.ids with ⟨res, s2⟩
  have happ : (applyCall s c).2 = s2 := by
    unfold applyCall
    rw [hrun]
  rw [happ]
  cases res with
  | error e =>
    have hs2 : s2 = s := runOp_error_store c.kind s c.req c.ids e s2 hrun
    rw [hs2]
    exact ⟨hbal, hWF, hw, rfl⟩
  | ok r =>
    by_cases hrep : r.idempotent = true
    · have hs2 : s2 = s := runOp_ok_replay_store c.kind s c.req c.ids r s2 hrun hrep
      rw [hs2]
      exact ⟨hbal, hWF, hw, rfl⟩
    · have hrep2 : r.idempotent = false := by
        cases hb : r.idempotent
        · rfl
        · exact absurd hb hrep
      cases hk : c.kind
      all_goals rw [hk] at hrun
      · -- TOPUP
        simp only [runOp] at hrun
        obtain ⟨hamt, hfind, uw, tw, sR, hres, hent, hwal, husr, hr⟩ :=
          topupWallet_ok_inv s c.req c.ids r s2 hrun hrep2
        obtain ⟨hentR, husrR, -, -, huwUid, ⟨u, hu, htwUid⟩, huwm, htwm, hsub, -⟩ :=
          resolveWallets_ok s c.req c.ids uw tw sR hres
        have hWFR := resolveWallets_WF s c.req c.ids uw tw sR hres hWF hids
        have hinj := resolveWallets_id_inj s c.req c.ids uw tw sR hres hWF hids w hw
        have htwne : ¬ tw.id = w.id := by
          intro hid
          have htww : tw = w := hinj.2.1 hid
          exact hsys u hu (by rw [← htww]; exact htwUid)
        refine ⟨?_, ?_, ?_, husr⟩
        · unfold computeBalance
          rw [hent, balanceOf_append_single]
          simp only [topupEntry]
          rw [if_neg htwne]
          unfold computeBalance at hbal
          by_cases huww : uw.id = w.id
          · rw [if_pos huww]; omega
          · rw [if_neg huww]; omega
        · unfold WFStore walletIds
          rw [hwal]
          exact hWFR
        · rw [hwal]
          exact hsub w hw
      · -- BONUS
        simp only [runOp] at hrun
        obtain ⟨hamt, hfind, uw, tw, sR, hres, hent, hwal, husr, hr⟩ :=
          issueBonus_ok_inv s c.req c.ids r s2 hrun hrep2
        obtain ⟨hentR, husrR, -, -, huwUid, ⟨u, hu, htwUid⟩, huwm, htwm, hsub, -⟩ :=
          resolveWallets_ok s c.req c.ids uw tw sR hres
        have hWFR := resolveWallets_WF s c.req c.ids uw tw sR hres hWF hids
        have hinj := resolveWallets_id_inj s c.req c.ids uw tw sR hres hWF hids w hw
        have htwne : ¬ tw.id = w.id := by
          intro hid
          have htww : tw = w := hinj.2.1 hid
          exact hsys u hu (by rw [← htww]; exact htwUid)
        refine ⟨?_, ?_, ?_, husr⟩
        · unfold computeBalance
          rw [hent, balanceOf_append_single]
          simp only [bonusEntry]
          rw [if_neg htwne]
          unfold computeBalance at hbal
          by_cases huww : uw.id = w.id
          · rw [if_pos huww]; omega
          · rw [if_neg huww]; omega
        · unfold WFStore walletIds
          rw [hwal]
          exact hWFR
        · rw [hwal]
          exact hsub w hw
      · -- SPEND
        simp only [runOp] at hrun
        obtain ⟨hamt, hfind, uw, tw, sR, hres, hguard, hent, hwal, husr, hr⟩ :=
          spendCredits_ok_inv s c.req c.ids r s2 hrun hrep2
        obtain ⟨hentR, husrR, -, -, huwUid, ⟨u, hu, htwUid⟩, huwm, htwm, hsub, -⟩ :=
          resolveWallets_ok s c.req c.ids uw tw sR hres
        have hWFR := resolveWallets_WF s c.req c.ids uw tw sR hres hWF hids
        have hinj := resolveWallets_id_inj s c.req c.ids uw tw sR hres hWF hids w hw
        have htwne : ¬ tw.id = w.id := by
          intro hid
          have htww : tw = w := hinj.2.1 hid
          exact hsys u hu (by rw [← htww]; exact htwUid)
        refine ⟨?_, ?_, ?_, husr⟩
        · unfold computeBalance
          rw [hent, balanceOf_append_single]
          simp only [spendEntry]
          rw [if_neg htwne]
          unfold computeBalance at hbal hguard
          by_cases huww : uw.id = w.id
          · rw [if_pos huww]
            rw [huww] at hguard
            omega
          · rw [if_neg huww]
            omega
        · unfold WFStore walletIds
          rw [hwal]
          exact hWFR
        · rw [hwal]
          exact hsub w hw

theorem runCalls_preserves (cs : List OpCall) (s : Store) (w : WalletRec)
    (hWF : WFStore s) (hw : w ∈ s.wallets)
    (hsys : ∀ u, firstSystemUser s = some u → w.userId ≠ u.id)
    (hbal : 0 ≤ computeBalance s w.id) (hfresh : StepFresh s cs) :
    0 ≤ computeBalance (runCalls s cs) w.id := by
  induction cs generalizing s with
  | nil => exact hbal
  | cons c cs ih =>
    obtain ⟨hf, hfs⟩ := hfresh
    obtain ⟨hbal2, hWF2, hw2, husr2⟩ := applyCall_preserves s c w hWF hf hw hsys hbal
    have hcong := firstSystemUser_congr (applyCall s c).2 s husr2
    have hsys2 : ∀ u, firstSystemUser (applyCall s c).2 = some u → w.userId ≠ u.id := by
      intro u hu
      exact hsys u (by rw [← hcong]; exact hu)
    exact ih (applyCall s c).2 hWF2 hw2 hsys2 hbal2 hfs

/-! ## Lemmas: the insufficient-funds guard and the idempotency race -/

theorem spendCredits_insufficient_eval (s : Store) (req : WalletRequest)
    (ids : FreshIds) (uw tw : WalletRec) (sR : Store)
    (hamt : 0 < req.amount)
    (hkey : findByKey s req.idempotencyKey = none)
    (hres : resolveWallets s req ids = .ok (uw, tw, sR))
    (hbal : computeBalance s uw.id < req.amount) :
    spendCredits s req ids =
      (.error (.insufficientBalance (computeBalance s uw.id) req.amount), s) := by
  obtain ⟨hentR, -, -, -, -, -, -, -, -, -⟩ :=
    resolveWallets_ok s req ids uw tw sR hres
  have hcb : computeBalance sR uw.id = computeBalance s uw.id := by
    unfold computeBalance
    rw [hentR]
  have hbody : spendTxBody s req ids =
      .error (.insufficientBalance (computeBalance s uw.id) req.amount) := by
    unfold spendTxBody
    rw [hres]
    simp only []
    rw [hcb, if_pos hbal]
  unfold spendCredits
  rw [if_neg (by omega), hkey, hbody]

theorem runOpRaced_self (k : OpKind) (s : Store) (req : WalletRequest)
    (ids : FreshIds) : runOpRaced k s s req ids = runOp k s req ids := by
  cases k <;> rfl

theorem spendTxBody_insufficient (s : Store) (req : WalletRequest)
    (ids : FreshIds) (uw tw : WalletRec) (sR : Store)
    (hres : resolveWallets s req ids = .ok (uw, tw, sR))
    (hbal : computeBalance s uw.id < req.amount) :
    spendTxBody s req ids =
      .error (.insufficientBalance (computeBalance s uw.id) req.amount) := by
  obtain ⟨hentR, -, -, -, -, -, -, -, -, -⟩ :=
    resolveWallets_ok s req ids uw tw sR hres
  have hcb : computeBalance sR uw.id = computeBalance s uw.id := by
    unfold computeBalance
    rw [hentR]
  unfold spendTxBody
  rw [hres]
  simp only []
  rw [hcb, if_pos hbal]

/-- Whatever the kind, when the commit-time store already holds an
entry under the request's key, the body — provided a SPEND's balance
guard lets it reach the insert — fails on the uniqueness constraint. -/
theorem opTxBody_conflict (k : OpKind) (s : Store) (req : WalletRequest)
    (ids : FreshIds) (uw tw : WalletRec) (sR : Store) (e : LedgerEntry)
    (hres : resolveWallets s req ids = .ok (uw, tw, sR))
    (hsome : findByKey s req.idempotencyKey = some e)
    (hguard : k = .spend → req.amount ≤ computeBalance s uw.id) :
    opTxBody k s req ids = .error .uniqueKeyViolation := by
  obtain ⟨hentR, -, -, -, -, -, -, -, -, -⟩ :=
    resolveWallets_ok s req ids uw tw sR hres
  have hcb : computeBalance sR uw.id = computeBalance s uw.id := by
    unfold computeBalance
    rw [hentR]
  have hany : (sR.entries.any
      fun e2 => e2.idempotencyKey == some req.idempotencyKey) = true := by
    rw [hentR]
    exact any_key_of_findByKey_some s req.idempotencyKey e hsome
  cases k
  · show topupTxBody s req ids = _
    unfold topupTxBody
    rw [hres]
    simp only []
    unfold createLedgerEntry
    simp only []
    rw [if_pos hany]
  · show issueBonusTxBody s req ids = _
    unfold issueBonusTxBody
    rw [hres]
    simp only []
    unfold createLedgerEntry
    simp only []
    rw [if_pos hany]
  · show spendTxBody s req ids = _
    have hg := hguard rfl
    unfold spendTxBody
    rw [hres]
    simp only []
    rw [hcb, if_neg (by omega)]
    unfold createLedgerEntry
    simp only []
    rw [if_pos hany]

/-- Inversion of a successful transaction body, any kind: the wallets
were resolved and exactly the kind's entry was appended. -/
theorem opTxBody_ok_inv (k : OpKind) (s : Store) (req : WalletRequest)
    (ids : FreshIds) (res : TxResult) (sF : Store)
    (h : opTxBody k s req ids = .ok (res, sF)) :
    ∃ uw tw sR, resolveWallets s req ids = .ok (uw, tw, sR) ∧
      sF.entries = s.entries ++ [opEntry k req ids uw tw] ∧
      sF.wallets = sR.wallets ∧ sF.users = s.users ∧
      res.idempotent = false := by
  cases k
  all_goals simp only [opTxBody] at h
  · unfold topupTxBody at h
    split at h
    · simp at h
    · rename_i uw tw sR hres
      simp only [] at h
      split at h
      · simp at h
      · rename_i s4 hce
        simp only [Except.ok.injEq, Prod.mk.injEq] at h
        obtain ⟨hres3, hs5⟩ := h
        obtain ⟨hent4, hwal4, husr4, -, -⟩ := createLedgerEntry_ok _ _ _ hce
        obtain ⟨hentR, husrR, -, -, -, -, -, -, -, -⟩ :=
          resolveWallets_ok s req ids uw tw sR hres
        refine ⟨uw, tw, sR, hres, ?_, ?_, ?_, by rw [← hres3]⟩
        · rw [← hs5]
          show s4.entries = _
          rw [hent4]
          show sR.entries ++ [topupEntry req ids uw tw] = _
          rw [hentR]
          rfl
        · rw [← hs5]
          show s4.wallets = _
          rw [hwal4]
        · rw [← hs5]
          show s4.users = _
          rw [husr4]
          show sR.users = _
          rw [husrR]
  · unfold issueBonusTxBody at h
    split at h
    · simp at h
    · rename_i uw tw sR hres
      simp only [] at h
      split at h
      · simp at h
      · rename_i s4 hce
        simp only [Except.ok.injEq, Prod.mk.injEq] at h
        obtain ⟨hres3, hs5⟩ := h
        obtain ⟨hent4, hwal4, husr4, -, -⟩ := createLedgerEntry_ok _ _ _ hce
        obtain ⟨hentR, husrR, -, -, -, -, -, -, -, -⟩ :=
          resolveWallets_ok s req ids uw tw sR hres
        refine ⟨uw, tw, sR, hres, ?_, ?_, ?_, by rw [← hres3]⟩
        · rw [← hs5]
          show s4.entries = _
          rw [hent4]
          show sR.entries ++ [bonusEntry req ids uw tw] = _
          rw [hentR]
          rfl
        · rw [← hs5]
          show s4.wallets = _
          rw [hwal4]
        · rw [← hs5]
          show s4.users = _
          rw [husr4]
          show sR.users = _
          rw [husrR]
  · unfold spendTxBody at h
    split at h
    · simp at h
    · rename_i uw tw sR hres
      simp only [] at h
      split at h
      · simp at h
      · split at h
        · simp at h
        · rename_i s4 hce
          simp only [Except.ok.injEq, Prod.mk.injEq] at h
          obtain ⟨hres3, hs5⟩ := h
          obtain ⟨hent4, hwal4, husr4, -, -⟩ := createLedgerEntry_ok _ _ _ hce
          obtain ⟨hentR, husrR, -, -, -, -, -, -, -, -⟩ :=
            resolveWallets_ok s req ids uw tw sR hres
          refine ⟨uw, tw, sR, hres, ?_, ?_, ?_, by rw [← hres3]⟩
          · rw [← hs5]
            show s4.entries = _
            rw [hent4]
            show sR.entries ++ [spendEntry req ids uw tw] = _
            rw [hentR]
            rfl
          · rw [← hs5]
            show s4.wallets = _
            rw [hwal4]
          · rw [← hs5]
            show s4.users = _
            rw [husr4]
            show sR.users = _
            rw [husrR]

theorem opEntry_amount (k : OpKind) (req : WalletRequest) (ids : FreshIds)
    (uw tw : WalletRec) : (opEntry k req ids uw tw).amount = req.amount := by
  cases k <;> rfl

theorem opEntry_direction (k : OpKind) (req : WalletRequest) (ids : FreshIds)
    (uw tw : WalletRec) :
    ((opEntry k req ids uw tw).debitWalletId = tw.id ∧
      (opEntry k req ids uw tw).creditWalletId = uw.id) ∨
    ((opEntry k req ids uw tw).debitWalletId = uw.id ∧
      (opEntry k req ids uw tw).creditWalletId = tw.id) := by
  cases k
  · exact Or.inl ⟨rfl, rfl⟩
  · exact Or.inl ⟨rfl, rfl⟩
  · exact Or.inr ⟨rfl, rfl⟩

/-- Inversion of any fresh success: the fast path missed, and exactly
one entry carrying the request's key and the minted transaction id was
appended. -/
theorem runOp_ok_fresh_entry (k : OpKind) (s : Store) (req : WalletRequest)
    (ids : FreshIds) (r : TxResult) (s2 : Store)
    (h : runOp k s req ids = (.ok r, s2)) (hfr : r.idempotent = false) :
    0 < req.amount ∧ findByKey s req.idempotencyKey = none ∧
    ∃ e, s2.entries = s.entries ++ [e] ∧
      e.idempotencyKey = some req.idempotencyKey ∧
      e.transactionId = ids.transactionId ∧
      r.transactionId = ids.transactionId := by
  cases k
  · simp only [runOp] at h
    obtain ⟨hamt, hfind, uw, tw, sR, hres, hent, -, -, hr⟩ :=
      topupWallet_ok_inv s req ids r s2 h hfr
    exact ⟨hamt, hfind, topupEntry req ids uw tw, hent, rfl, rfl, by rw [hr]⟩
  · simp only [runOp] at h
    obtain ⟨hamt, hfind, uw, tw, sR, hres, hent, -, -, hr⟩ :=
      issueBonus_ok_inv s req ids r s2 h hfr
    exact ⟨hamt, hfind, bonusEntry req ids uw tw, hent, rfl, rfl, by rw [hr]⟩
  · simp only [runOp] at h
    obtain ⟨hamt, hfind, uw, tw, sR, hres, -, hent, -, -, hr⟩ :=
      spendCredits_ok_inv s req ids r s2 h hfr
    exact ⟨hamt, hfind, spendEntry req ids uw tw, hent, rfl, rfl, by rw [hr]⟩

/-- Inversion of a fresh success of the raw-amount pipeline: the raw
amount passed the gates and the kind's entry, built from the quantized
request, was appended. -/
theorem runOpRaw_ok_inv (k : OpKind) (s : Store) (uid aid : String) (q : ℚ)
    (key : String) (desc : Option String) (ids : FreshIds) (r : TxResult)
    (s2 : Store)
    (h : runOpRaw k s uid aid q key desc ids = (.ok r, s2))
    (hfr : r.idempotent = false) :
    0 < q ∧ findByKey s key = none ∧
    ∃ uw tw sR,
      resolveWallets s (rawToReq uid aid q key desc) ids = .ok (uw, tw, sR) ∧
      s2.entries = s.entries ++ [opEntry k (rawToReq uid aid q key desc) ids uw tw] := by
  unfold runOpRaw at h
  split at h
  · simp at h
  · rename_i hq
    split at h
    · rename_i existing hfind
      simp only [Prod.mk.injEq, Except.ok.injEq] at h
      rw [← h.1] at hfr
      simp [replayResult] at hfr
    · rename_i hfind
      split at h
      · rename_i res sF hbody
        simp only [Prod.mk.injEq, Except.ok.injEq] at h
        obtain ⟨-, hsF⟩ := h
        obtain ⟨uw, tw, sR, hres, hent, -, -, -⟩ :=
          opTxBody_ok_inv k s _ ids res sF hbody
        exact ⟨not_le.mp hq, hfind, uw, tw, sR, hres, by rw [← hsF]; exact hent⟩
      · simp at h

theorem toFixed4HalfUp_nonneg (q : ℚ) (hq : 0 < q) : 0 ≤ toFixed4HalfUp q := by
  unfold toFixed4HalfUp
  refine Int.le_floor.mpr ?_
  push_cast
  nlinarith

theorem toFixed4HalfUp_pos_iff (q : ℚ) : 0 < toFixed4HalfUp q ↔ 1 / 20000 ≤ q := by
  unfold toFixed4HalfUp
  constructor
  · intro h
    have h2 : ((1 : Int) : ℚ) ≤ q * 10000 + 1 / 2 := Int.le_floor.mp h
    push_cast at h2
    linarith
  · intro h
    have h2 : ((1 : Int) : ℚ) ≤ q * 10000 + 1 / 2 := by
      push_cast
      linarith
    exact Int.le_floor.mpr h2

/-! ## Claims -/

/-- C1: For every SPEND request, if the derived balance of the user's
wallet (computed under lock, i.e. over the entries visible inside the
atomic unit) is strictly less than the requested amount, the operation
fails with InsufficientFunds carrying the available and required
amounts, the whole unit rolls back — the final store is the initial
store, so no LedgerEntry and no Transaction from the attempt persists —
and the wallet's derived balance is unchanged. -/
theorem c1_spend_insufficient_funds (s : Store) (req : WalletRequest)
    (ids : FreshIds) (uw tw : WalletRec) (sR : Store)
    (hamt : 0 < req.amount)
    (hkey : findByKey s req.idempotencyKey = none)
    (hres : resolveWallets s req ids = .ok (uw, tw, sR))
    (hbal : computeBalance s uw.id < req.amount) :
    (spendCredits s req ids).1 =
      .error (.insufficientBalance (computeBalance s uw.id) req.amount) ∧
    (spendCredits s req ids).2 = s ∧
    (spendCredits s req ids).2.entries = s.entries ∧
    (spendCredits s req ids).2.transactions = s.transactions ∧
    computeBalance (spendCredits s req ids).2 uw.id = computeBalance s uw.id := by
  have h := spendCredits_insufficient_eval s req ids uw tw sR hamt hkey hres hbal
  rw [h]
  exact ⟨rfl, rfl, rfl, rfl, rfl⟩

/-- C1 witness: spending 9999 against a zero balance is rejected with
the computed available amount and leaves the store untouched. -/
theorem c1_spend_insufficient_funds_witness :
    0 < c1Req.amount ∧
    (spendCredits demoStore c1Req demoIds1).1 =
      .error (.insufficientBalance (computeBalance demoStore "w-ali") 9999) ∧
    (spendCredits demoStore c1Req demoIds1).2 = demoStore := by
  have h := c1_spend_insufficient_funds demoStore c1Req demoIds1
    { id := "w-ali", userId := "u-alice", assetTypeId := "a-gold" }
    { id := "w-tre", userId := "u-sys", assetTypeId := "a-gold" }
    demoStore (by decide) (by decide) (by decide) (by decide)
  exact ⟨by decide, h.1, h.2.1⟩

/-- C6 counterexample: on an input carrying a duplicated wallet id the
code's lock sequence keeps the duplicate — it locks the id twice — while
the claimed sequence locks each distinct id once. -/
theorem c6_lock_order_counterexample :
    lockWalletsInOrder ["w-a", "w-a"] = ["w-a", "w-a"] ∧
    claimLockSequence ["w-a", "w-a"] = ["w-a"] ∧
    lockWalletsInOrder ["w-a", "w-a"] ≠ claimLockSequence ["w-a", "w-a"] := by
  decide

/-- C6 (amended): the lock-acquisition step acquires locks in exactly
the ascending lexical sort of the *supplied list* of wallet ids,
duplicates retained: the sequence is sorted, is a permutation of the
input, and depends only on the multiset of supplied ids; on a
duplicate-free input it coincides with the claimed
distinct-ids-sorted-once sequence. -/
theorem c6_lock_order_sorted (xs : List String) :
    (lockWalletsInOrder xs).Sorted strLe ∧
    List.Perm (lockWalletsInOrder xs) xs ∧
    (∀ ys, List.Perm ys xs → lockWalletsInOrder ys = lockWalletsInOrder xs) ∧
    (xs.Nodup → lockWalletsInOrder xs = claimLockSequence xs) := by
  refine ⟨sortAsc_sorted xs, sortAsc_perm xs,
    fun ys hp => sortAsc_eq_of_perm ys xs hp, fun hnd => ?_⟩
  unfold lockWalletsInOrder claimLockSequence
  rw [List.dedup_eq_self.mpr hnd]

/-- C6 witness: on the duplicate-free pair `["w-b", "w-a"]` the lock
sequence is the sorted permutation and equals the claimed sequence. -/
theorem c6_lock_order_sorted_witness :
    (lockWalletsInOrder ["w-b", "w-a"]).Sorted strLe ∧
    List.Perm (lockWalletsInOrder ["w-b", "w-a"]) ["w-b", "w-a"] ∧
    lockWalletsInOrder ["w-b", "w-a"] = claimLockSequence ["w-b", "w-a"] := by
  have h := c6_lock_order_sorted ["w-b", "w-a"]
  exact ⟨h.1, h.2.1, h.2.2.2 (by decide)⟩

/-- C8: a request whose amount is not positive is rejected by the
schema gate with the 400 ValidationError response before any store
access: the store is returned unchanged, and the response does not
depend on the store at all (no read happened). -/
theorem c8_nonpositive_amount_rejected (k : OpKind) (s : Store)
    (req : WalletRequest) (ids : FreshIds) (h : req.amount ≤ 0) :
    endpointRun k s req ids = (.err zodValidationResponse, s) ∧
    (∀ s2, (endpointRun k s2 req ids).1 = .err zodValidationResponse) := by
  have hs : ∀ s3 : Store, endpointRun k s3 req ids = (.err zodValidationResponse, s3) := by
    intro s3
    unfold endpointRun
    rw [if_neg]
    intro hacc
    exact absurd hacc.1 (by omega)
  exact ⟨hs s, fun s2 => by rw [hs s2]⟩

/-- C8 witness: a spend of −5 gets the 400 validation response and the
store back unchanged. -/
theorem c8_nonpositive_amount_rejected_witness :
    c8Req.amount ≤ 0 ∧
    endpointRun .spend demoStore c8Req demoIds1 =
      (.err zodValidationResponse, demoStore) := by
  exact ⟨by decide,
    (c8_nonpositive_amount_rejected .spend demoStore c8Req demoIds1 (by decide)).1⟩

/-- C10: the replay fast path matches on the idempotency key alone: any
request (of any kind, for any user, asset and positive amount) whose
key has a committed entry returns that entry's transaction id as a
replay, and the store is unchanged. -/
theorem c10_replay_matches_key_alone (k : OpKind) (s : Store)
    (userId assetTypeId : String) (amount : Int) (key : String)
    (desc : Option String) (ids : FreshIds) (e : LedgerEntry)
    (hamt : 0 < amount)
    (hfind : findByKey s key = some e) :
    runOp k s { userId := userId, assetTypeId := assetTypeId,
                amount := amount, idempotencyKey := key,
                description := desc } ids =
      (.ok (replayResult e.transactionId), s) :=
  runOp_replay k s
    { userId := userId, assetTypeId := assetTypeId, amount := amount,
      idempotencyKey := key, description := desc } ids e hamt hfind

/-- C10 witness: a spend by a different user, of a different asset and
amount, but carrying the key of the committed topup entry, replays the
original transaction id without writing. -/
theorem c10_replay_matches_key_alone_witness :
    0 < (777 : Int) ∧
    findByKey c10Store "k-orig" = some c10Entry ∧
    runOp .spend c10Store
      { userId := "u-bob", assetTypeId := "a-diamond", amount := 777,
        idempotencyKey := "k-orig", description := none } demoIds2 =
      (.ok (replayResult "tx-orig"), c10Store) := by
  refine ⟨by decide, by decide, ?_⟩
  exact c10_replay_matches_key_alone .spend c10Store "u-bob" "a-diamond" 777
    "k-orig" none demoIds2 c10Entry (by decide) (by decide)

/-- C2 counterexample: starting from `seededStore`, where the treasury
wallet `w-tre` has balance +100 ≥ 0, an accepted SPEND by the treasury
user debits `w-tre` (the written entry's debit wallet is `w-tre`), and a
subsequent accepted TOPUP drives the derived balance of `w-tre` to −50:
the wallet debited by an accepted SPEND, which started non-negative,
goes negative under an interleaved TOPUP, refuting the claim as
stated. -/
theorem c2_nonnegativity_counterexample :
    acceptedB seededStore c2SpendCall = true ∧
    (applyCall seededStore c2SpendCall).2.entries =
      seededStore.entries ++
        [{ id := "ce-1", transactionId := "ct-1", assetTypeId := "a-gold",
           debitWalletId := "w-tre", creditWalletId := "w-tre", amount := 50,
           transactionType := .SPEND, description := some "In-app purchase",
           idempotencyKey := some "kc2-a" }] ∧
    acceptedB (applyCall seededStore c2SpendCall).2 c2TopupCall = true ∧
    0 ≤ computeBalance seededStore "w-tre" ∧
    computeBalance (runCalls seededStore [c2SpendCall, c2TopupCall]) "w-tre" < 0 := by
  decide

/-- C2 (amended): for every wallet that is *not owned by the treasury
(first system) user*, after any sequence of operations — each accepted
operation applies, each rejected one rolls back — starting from a
non-negative derived balance in a well-formed store with fresh ids per
call, the derived balance remains ≥ 0.  (The exception treasury-owned
wallets need is forced by the counterexample: a spend by the treasury
user debits a wallet that unconditional topups and bonuses also
debit.) -/
theorem c2_nonnegativity_nontreasury (cs : List OpCall) (s : Store)
    (w : WalletRec)
    (hWF : WFStore s) (hw : w ∈ s.wallets)
    (hsys : ∀ u, firstSystemUser s = some u → w.userId ≠ u.id)
    (hbal : 0 ≤ computeBalance s w.id) (hfresh : StepFresh s cs) :
    0 ≤ computeBalance (runCalls s cs) w.id :=
  runCalls_preserves cs s w hWF hw hsys hbal hfresh

/-- C2 witness: alice's wallet stays non-negative across a topup
followed by a spend. -/
theorem c2_nonnegativity_nontreasury_witness :
    WFStore demoStore ∧ StepFresh demoStore c2WitnessCalls ∧
    0 ≤ computeBalance (runCalls demoStore c2WitnessCalls) "w-ali" := by
  refine ⟨by decide, by decide, ?_⟩
  refine c2_nonnegativity_nontreasury c2WitnessCalls demoStore
    { id := "w-ali", userId := "u-alice", assetTypeId := "a-gold" }
    (by decide) (by decide) ?_ (by decide) (by decide)
  intro u hu
  have h2 : firstSystemUser demoStore =
      some { id := "u-sys", username := "treasury",
             email := "treasury@system.internal", isSystem := true } := by
    decide
  rw [h2] at hu
  injection hu with h3
  rw [← h3]
  decide

/-- C3 counterexample: resubmitting the same topup under the same key
returns a replay payload that is *not* the original payload with the
replay flag set: the original carried `amount: 500`, the replay carries
no amount at all and a message field instead. -/
theorem c3_idempotent_replay_counterexample :
    (topupWallet demoStore c3Req demoIds1).1 =
      .ok { transactionId := "tx-1", amount := some 500,
            remainingBalance := none, idempotent := false, message := none } ∧
    (topupWallet (topupWallet demoStore c3Req demoIds1).2 c3Req demoIds2).1 =
      .ok (replayResult "tx-1") ∧
    replayResult "tx-1" ≠
      { transactionId := "tx-1", amount := some 500,
        remainingBalance := none, idempotent := true, message := none } := by
  decide

/-- C3 (amended): a fresh success writes exactly one entry under the
request's idempotency key, its result carries the minted transaction id,
and every later submission of the same request (any number of times,
with any fresh ids) returns the replay payload — same transaction id,
replay flag true, message set, but no amount and no resulting balance —
and leaves the store unchanged. -/
theorem c3_idempotent_replay (k : OpKind) (s : Store) (req : WalletRequest)
    (ids : FreshIds) (r : TxResult) (s2 : Store)
    (h : runOp k s req ids = (.ok r, s2)) (hfr : r.idempotent = false) :
    countKey s2 req.idempotencyKey = 1 ∧
    r.transactionId = ids.transactionId ∧
    (∀ ids2, runOp k s2 req ids2 = (.ok (replayResult r.transactionId), s2)) ∧
    (∀ n idsf, repeatOp k req idsf n s2 = s2) := by
  cases k
  · simp only [runOp] at h
    obtain ⟨hamt, hfind, uw, tw, sR, hres, hent, hwal, husr, hr⟩ :=
      topupWallet_ok_inv s req ids r s2 h hfr
    have hkey2 : findByKey s2 req.idempotencyKey = some (topupEntry req ids uw tw) :=
      findByKey_append_entry s s2 _ _ hent rfl hfind
    refine ⟨?_, ?_, fun ids2 => ?_, fun n idsf => ?_⟩
    · rw [countKey_append_entry s s2 _ _ hent rfl,
        countKey_zero_of_findByKey_none s _ hfind]
    · rw [hr]
    · rw [hr]
      exact runOp_replay .topup s2 req ids2 _ hamt hkey2
    · exact repeatOp_fixed .topup req idsf n s2 _ hamt hkey2
  · simp only [runOp] at h
    obtain ⟨hamt, hfind, uw, tw, sR, hres, hent, hwal, husr, hr⟩ :=
      issueBonus_ok_inv s req ids r s2 h hfr
    have hkey2 : findByKey s2 req.idempotencyKey = some (bonusEntry req ids uw tw) :=
      findByKey_append_entry s s2 _ _ hent rfl hfind
    refine ⟨?_, ?_, fun ids2 => ?_, fun n idsf => ?_⟩
    · rw [countKey_append_entry s s2 _ _ hent rfl,
        countKey_zero_of_findByKey_none s _ hfind]
    · rw [hr]
    · rw [hr]
      exact runOp_replay .bonus s2 req ids2 _ hamt hkey2
    · exact repeatOp_fixed .bonus req idsf n s2 _ hamt hkey2
  · simp only [runOp] at h
    obtain ⟨hamt, hfind, uw, tw, sR, hres, hguard, hent, hwal, husr, hr⟩ :=
      spendCredits_ok_inv s req ids r s2 h hfr
    have hkey2 : findByKey s2 req.idempotencyKey = some (spendEntry req ids uw tw) :=
      findByKey_append_entry s s2 _ _ hent rfl hfind
    refine ⟨?_, ?_, fun ids2 => ?_, fun n idsf => ?_⟩
    · rw [countKey_append_entry s s2 _ _ hent rfl,
        countKey_zero_of_findByKey_none s _ hfind]
    · rw [hr]
    · rw [hr]
      exact runOp_replay .spend s2 req ids2 _ hamt hkey2
    · exact repeatOp_fixed .spend req idsf n s2 _ hamt hkey2

/-- C3 witness: a topup under key `k-c3` leaves one entry with that
key; one replay, and three repeats, leave the committed store fixed. -/
theorem c3_idempotent_replay_witness :
    countKey (runOp .topup demoStore c3Req demoIds1).2 "k-c3" = 1 ∧
    runOp .topup (runOp .topup demoStore c3Req demoIds1).2 c3Req demoIds2 =
      (.ok (replayResult "tx-1"), (runOp .topup demoStore c3Req demoIds1).2) ∧
    repeatOp .topup c3Req (fun _ => demoIds2) 3
      (runOp .topup demoStore c3Req demoIds1).2 =
      (runOp .topup demoStore c3Req demoIds1).2 := by
  have h := c3_idempotent_replay .topup demoStore c3Req demoIds1
    { transactionId := "tx-1", amount := some 500, remainingBalance := none,
      idempotent := false, message := none }
    (runOp .topup demoStore c3Req demoIds1).2 (by decide) (by decide)
  exact ⟨h.1, h.2.2.1 demoIds2, h.2.2.2 3 (fun _ => demoIds2)⟩

/-- C4 counterexample: after the winner commits under key `k-c4`, the
raced loser — whose fast-path check ran before the commit — hits the
uniqueness constraint, and the error middleware surfaces it as the 409
"Duplicate request detected" failure response, not as a successful
replay of the winner's transaction. -/
theorem c4_race_counterexample :
    (topupWallet demoStore c4Req demoIds1).1 =
      .ok { transactionId := "tx-1", amount := some 500,
            remainingBalance := none, idempotent := false, message := none } ∧
    (runOpRaced .topup demoStore c4WinnerStore c4Req demoIds2).1 =
      .error .uniqueKeyViolation ∧
    errorHandler .uniqueKeyViolation =
      { status := 409, success := false,
        error := some "Duplicate request detected" } ∧
    (runOpRaced .topup demoStore c4WinnerStore c4Req demoIds2).1 ≠
      .ok (replayResult "tx-1") := by
  decide

/-- C4 (amended): when two requests of any kinds carrying one
idempotency key race past the fast path, exactly one entry under the
key commits; the loser's insert — reached whenever its own pre-insert
checks pass, which for a SPEND means its balance guard (an underfunded
racing SPEND instead fails with InsufficientFunds before the insert) —
fails on the uniqueness constraint and is surfaced to the caller as the
409 conflict response, with no re-read and no replay conversion; only a
*subsequent retry*, whose fast-path check runs against the committed
store, receives the successful replay of the winner's transaction. -/
theorem c4_race_conflict_surfaced (k1 k2 : OpKind) (s0 : Store)
    (req1 req2 : WalletRequest) (ids1 ids2 : FreshIds) (r : TxResult)
    (s1 : Store) (uw tw : WalletRec) (sR : Store)
    (hkey : req2.idempotencyKey = req1.idempotencyKey)
    (hamt2 : 0 < req2.amount)
    (hwin : runOp k1 s0 req1 ids1 = (.ok r, s1)) (hfr : r.idempotent = false)
    (hres2 : resolveWallets s1 req2 ids2 = .ok (uw, tw, sR)) :
    countKey s1 req1.idempotencyKey = 1 ∧
    ((k2 = .spend → req2.amount ≤ computeBalance s1 uw.id) →
      runOpRaced k2 s0 s1 req2 ids2 = (.error .uniqueKeyViolation, s1)) ∧
    (k2 = .spend → computeBalance s1 uw.id < req2.amount →
      runOpRaced k2 s0 s1 req2 ids2 =
        (.error (.insufficientBalance (computeBalance s1 uw.id) req2.amount), s1)) ∧
    errorHandler .uniqueKeyViolation =
      { status := 409, success := false,
        error := some "Duplicate request detected" } ∧
    (∀ ids3, runOp k2 s1 req2 ids3 = (.ok (replayResult r.transactionId), s1)) := by
  obtain ⟨hamt1, hfind0, e, hent, hekey, hetx, hrtx⟩ :=
    runOp_ok_fresh_entry k1 s0 req1 ids1 r s1 hwin hfr
  have hfind0b : findByKey s0 req2.idempotencyKey = none := by
    rw [hkey]
    exact hfind0
  have hkey1 : findByKey s1 req2.idempotencyKey = some e := by
    rw [hkey]
    exact findByKey_append_entry s0 s1 e req1.idempotencyKey hent hekey hfind0
  refine ⟨?_, ?_, ?_, rfl, fun ids3 => ?_⟩
  · rw [countKey_append_entry s0 s1 e _ hent hekey,
      countKey_zero_of_findByKey_none s0 _ hfind0]
  · intro hg
    have hbody := opTxBody_conflict k2 s1 req2 ids2 uw tw sR e hres2 hkey1 hg
    unfold runOpRaced
    rw [if_neg (by omega), hfind0b, hbody]
  · intro hsp hlt
    subst hsp
    have hbody : opTxBody .spend s1 req2 ids2 =
        .error (.insufficientBalance (computeBalance s1 uw.id) req2.amount) :=
      spendTxBody_insufficient s1 req2 ids2 uw tw sR hres2 hlt
    unfold runOpRaced
    rw [if_neg (by omega), hfind0b, hbody]
  · rw [hrtx, ← hetx]
    exact runOp_replay k2 s1 req2 ids3 e hamt2 hkey1

/-- C4 witness: a TOPUP winner and a racing SPEND loser under key
`k-c4` — the loser's guard passes, its insert conflicts and surfaces as
the unique-key error; the loser's fresh retry replays the winner. -/
theorem c4_race_conflict_surfaced_witness :
    countKey c4WinnerStore "k-c4" = 1 ∧
    runOpRaced .spend demoStore c4WinnerStore c4LoserReq demoIds2 =
      (.error .uniqueKeyViolation, c4WinnerStore) ∧
    runOp .spend c4WinnerStore c4LoserReq demoIds2 =
      (.ok (replayResult "tx-1"), c4WinnerStore) := by
  have h := c4_race_conflict_surfaced .topup .spend demoStore c4Req c4LoserReq
    demoIds1 demoIds2
    { transactionId := "tx-1", amount := some 500, remainingBalance := none,
      idempotent := false, message := none }
    c4WinnerStore
    { id := "w-ali", userId := "u-alice", assetTypeId := "a-gold" }
    { id := "w-tre", userId := "u-sys", assetTypeId := "a-gold" }
    c4WinnerStore (by decide) (by decide) (by decide) (by decide) (by decide)
  exact ⟨h.1, h.2.1 (by decide), h.2.2.2.2 demoIds2⟩

/-- C5: every fresh success writes exactly one ledger entry, whose kind
field equals the transaction kind and whose direction is determined by
the kind: TOPUP and BONUS debit the treasury wallet (a wallet of the
first system user) and credit the requesting user's wallet; SPEND
debits the requesting user's wallet and credits the treasury wallet. -/
theorem c5_entry_direction (k : OpKind) (s : Store) (req : WalletRequest)
    (ids : FreshIds) (r : TxResult) (s2 : Store)
    (h : runOp k s req ids = (.ok r, s2)) (hfr : r.idempotent = false) :
    ∃ uw tw sR e,
      resolveWallets s req ids = .ok (uw, tw, sR) ∧
      uw.userId = req.userId ∧
      (∃ u, firstSystemUser s = some u ∧ tw.userId = u.id) ∧
      s2.entries = s.entries ++ [e] ∧
      e.transactionType = opTxType k ∧
      e.amount = req.amount ∧
      ((k = .topup ∨ k = .bonus) →
        e.debitWalletId = tw.id ∧ e.creditWalletId = uw.id) ∧
      (k = .spend → e.debitWalletId = uw.id ∧ e.creditWalletId = tw.id) := by
  cases k
  · simp only [runOp] at h
    obtain ⟨hamt, hfind, uw, tw, sR, hres, hent, hwal, husr, hr⟩ :=
      topupWallet_ok_inv s req ids r s2 h hfr
    obtain ⟨-, -, -, -, huwUid, hsys, -, -, -, -⟩ :=
      resolveWallets_ok s req ids uw tw sR hres
    exact ⟨uw, tw, sR, topupEntry req ids uw tw, hres, huwUid, hsys, hent,
      rfl, rfl, fun _ => ⟨rfl, rfl⟩, fun hc => nomatch hc⟩
  · simp only [runOp] at h
    obtain ⟨hamt, hfind, uw, tw, sR, hres, hent, hwal, husr, hr⟩ :=
      issueBonus_ok_inv s req ids r s2 h hfr
    obtain ⟨-, -, -, -, huwUid, hsys, -, -, -, -⟩ :=
      resolveWallets_ok s req ids uw tw sR hres
    exact ⟨uw, tw, sR, bonusEntry req ids uw tw, hres, huwUid, hsys, hent,
      rfl, rfl, fun _ => ⟨rfl, rfl⟩, fun hc => nomatch hc⟩
  · simp only [runOp] at h
    obtain ⟨hamt, hfind, uw, tw, sR, hres, hguard, hent, hwal, husr, hr⟩ :=
      spendCredits_ok_inv s req ids r s2 h hfr
    obtain ⟨-, -, -, -, huwUid, hsys, -, -, -, -⟩ :=
      resolveWallets_ok s req ids uw tw sR hres
    refine ⟨uw, tw, sR, spendEntry req ids uw tw, hres, huwUid, hsys, hent,
      rfl, rfl, fun hc => ?_, fun _ => ⟨rfl, rfl⟩⟩
    rcases hc with hc | hc <;> exact nomatch hc

/-- C5 witness: the concrete topup writes one entry debiting the
treasury wallet and crediting alice's wallet with kind TOPUP. -/
theorem c5_entry_direction_witness :
    ∃ uw tw sR e,
      resolveWallets demoStore c5Req demoIds1 = .ok (uw, tw, sR) ∧
      uw.userId = c5Req.userId ∧
      (∃ u, firstSystemUser demoStore = some u ∧ tw.userId = u.id) ∧
      (runOp .topup demoStore c5Req demoIds1).2.entries =
        demoStore.entries ++ [e] ∧
      e.transactionType = opTxType .topup ∧
      e.amount = c5Req.amount ∧
      ((OpKind.topup = OpKind.topup ∨ OpKind.topup = OpKind.bonus) →
        e.debitWalletId = tw.id ∧ e.creditWalletId = uw.id) ∧
      (OpKind.topup = OpKind.spend →
        e.debitWalletId = uw.id ∧ e.creditWalletId = tw.id) :=
  c5_entry_direction .topup demoStore c5Req demoIds1
    { transactionId := "tx-1", amount := some 500, remainingBalance := none,
      idempotent := false, message := none }
    (runOp .topup demoStore c5Req demoIds1).2 (by decide) (by decide)

/-- C7 counterexample, both halves of the claim.  Distinctness: a topup
whose requesting user is the treasury user itself resolves both wallets
to the same row, and the accepted operation writes an entry whose debit
wallet equals its credit wallet (`w-tre` on both sides).  Positivity: a
raw request amount of 0.00001 passes the positivity gates (it is > 0),
yet `toFixed(4)` half-up rounds it to 0.0000, and the accepted
operation writes an entry whose stored amount is 0. -/
theorem c7_entry_invariants_counterexample :
    (acceptedB demoStore { kind := .topup, req := c7Req, ids := demoIds1 } = true ∧
     (applyCall demoStore { kind := .topup, req := c7Req, ids := demoIds1 }).2.entries =
       [{ id := "en-1", transactionId := "tx-1", assetTypeId := "a-gold",
          debitWalletId := "w-tre", creditWalletId := "w-tre", amount := 50,
          transactionType := .TOPUP, description := some "Top-up purchase",
          idempotencyKey := some "k-c7" }]) ∧
    (0 < (1 / 100000 : ℚ) ∧
     toFixed4HalfUp (1 / 100000) = 0 ∧
     (runOpRaw .topup demoStore "u-alice" "a-gold" (1 / 100000) "k-c7q" none
         demoIds2).2.entries =
       [{ id := "en-2", transactionId := "tx-2", assetTypeId := "a-gold",
          debitWalletId := "w-tre", creditWalletId := "w-ali", amount := 0,
          transactionType := .TOPUP, description := some "Top-up purchase",
          idempotencyKey := some "k-c7q" }]) := by
  have htf : toFixed4HalfUp (1 / 100000) = 0 := by
    unfold toFixed4HalfUp
    have heq : (1 / 100000 : ℚ) * 10000 + 1 / 2 = 3 / 5 := by norm_num
    rw [heq, Int.floor_eq_iff]
    norm_num
  have hreq : rawToReq "u-alice" "a-gold" (1 / 100000) "k-c7q" none =
      { userId := "u-alice", assetTypeId := "a-gold", amount := 0,
        idempotencyKey := "k-c7q", description := none } := by
    unfold rawToReq
    rw [htf]
  refine ⟨by decide, by norm_num, htf, ?_⟩
  unfold runOpRaw
  rw [if_neg (by norm_num), hreq]
  decide

/-- C7 (amended): every fresh success of the raw-amount pipeline writes
a single entry whose stored amount is the toFixed(4) half-up
quantization of the raw amount — always ≥ 0, and > 0 exactly when the
raw amount is at least 0.00005 (half of the 10⁻⁴ scale; smaller
accepted amounts persist as 0.0000) — and whose debit wallet differs
from its credit wallet *provided the requesting user is not the
treasury (first system) user*; a treasury self-request resolves both
sides to one wallet. -/
theorem c7_entry_invariants (k : OpKind) (s : Store) (uid aid : String)
    (q : ℚ) (key : String) (desc : Option String) (ids : FreshIds)
    (r : TxResult) (s2 : Store)
    (h : runOpRaw k s uid aid q key desc ids = (.ok r, s2))
    (hfr : r.idempotent = false)
    (hWF : WFStore s) (hids : FreshFor s ids)
    (hneq : ∀ u, firstSystemUser s = some u → uid ≠ u.id) :
    ∃ e, s2.entries = s.entries ++ [e] ∧
      e.amount = toFixed4HalfUp q ∧
      0 ≤ e.amount ∧
      (0 < e.amount ↔ 1 / 20000 ≤ q) ∧
      e.debitWalletId ≠ e.creditWalletId := by
  obtain ⟨hq, hfind, uw, tw, sR, hres, hent⟩ :=
    runOpRaw_ok_inv k s uid aid q key desc ids r s2 h hfr
  obtain ⟨-, -, -, -, huwUid, ⟨u, hu, htwUid⟩, -, -, -, -⟩ :=
    resolveWallets_ok s (rawToReq uid aid q key desc) ids uw tw sR hres
  have huid : uw.userId = uid := huwUid
  have hud : uw.userId ≠ tw.userId := by
    rw [huid, htwUid]
    exact hneq u hu
  have hidne := resolveWallets_uw_tw_ne s (rawToReq uid aid q key desc) ids
    uw tw sR hres hWF hids hud
  have hamt : (opEntry k (rawToReq uid aid q key desc) ids uw tw).amount =
      toFixed4HalfUp q := opEntry_amount k (rawToReq uid aid q key desc) ids uw tw
  refine ⟨opEntry k (rawToReq uid aid q key desc) ids uw tw, hent, hamt, ?_, ?_, ?_⟩
  · rw [hamt]
    exact toFixed4HalfUp_nonneg q hq
  · rw [hamt]
    exact toFixed4HalfUp_pos_iff q
  · rcases opEntry_direction k (rawToReq uid aid q key desc) ids uw tw with
      ⟨hd, hc⟩ | ⟨hd, hc⟩ <;> rw [hd, hc]
    · exact fun hcc => hidne hcc.symm
    · exact hidne

/-- C7 witness: a raw topup of 0.5 by alice writes one entry with
stored amount 5000 (units of 10⁻⁴), positive since 0.5 ≥ 0.00005, and
distinct debit and credit wallets. -/
theorem c7_entry_invariants_witness :
    WFStore demoStore ∧ FreshFor demoStore demoIds1 ∧
    (∃ e, (runOpRaw .topup demoStore "u-alice" "a-gold" (1 / 2) "k-c7w" none
        demoIds1).2.entries = demoStore.entries ++ [e] ∧
      e.amount = toFixed4HalfUp (1 / 2) ∧
      0 ≤ e.amount ∧
      (0 < e.amount ↔ 1 / 20000 ≤ (1 / 2 : ℚ)) ∧
      e.debitWalletId ≠ e.creditWalletId) := by
  have htf : toFixed4HalfUp (1 / 2) = 5000 := by
    unfold toFixed4HalfUp
    have heq : (1 / 2 : ℚ) * 10000 + 1 / 2 = 10001 / 2 := by norm_num
    rw [heq, Int.floor_eq_iff]
    norm_num
  have hreq : rawToReq "u-alice" "a-gold" (1 / 2) "k-c7w" none =
      { userId := "u-alice", assetTypeId := "a-gold", amount := 5000,
        idempotencyKey := "k-c7w", description := none } := by
    unfold rawToReq
    rw [htf]
  have h1 : (runOpRaw .topup demoStore "u-alice" "a-gold" (1 / 2) "k-c7w" none
      demoIds1).1 =
      .ok { transactionId := "tx-1", amount := some 5000,
            remainingBalance := none, idempotent := false, message := none } := by
    unfold runOpRaw
    rw [if_neg (by norm_num), hreq]
    decide
  refine ⟨by decide, by decide, ?_⟩
  refine c7_entry_invariants .topup demoStore "u-alice" "a-gold" (1 / 2)
    "k-c7w" none demoIds1
    { transactionId := "tx-1", amount := some 5000, remainingBalance := none,
      idempotent := false, message := none }
    (runOpRaw .topup demoStore "u-alice" "a-gold" (1 / 2) "k-c7w" none
      demoIds1).2
    (by rw [← h1]) (by decide) (by decide) (by decide) ?_
  intro u hu
  have h2 : firstSystemUser demoStore =
      some { id := "u-sys", username := "treasury",
             email := "treasury@system.internal", isSystem := true } := by
    decide
  rw [h2] at hu
  injection hu with h3
  rw [← h3]
  decide

/-- C9: GetBalance for a user/asset pair with no wallet returns the
asset's name and symbol with balance "0.0000" and returns the store it
was given — in particular it creates no wallet; when a wallet exists,
the returned balance is the sum of entry amounts crediting the wallet
minus the sum debiting it, rendered with four fractional digits, and the
store is again unchanged. -/
theorem c9_get_balance (s : Store) (userId assetTypeId : String)
    (a : AssetTypeRec) (w : WalletRec) :
    ((s.wallets.find? (fun w2 =>
        w2.userId == userId && w2.assetTypeId == assetTypeId) = none) →
     (s.assetTypes.find? (fun a2 => a2.id == assetTypeId) = some a) →
     getBalance s userId assetTypeId =
       (.ok { userId := userId, assetTypeId := assetTypeId,
              assetName := a.name, assetSymbol := a.symbol,
              balance := "0.0000" }, s)) ∧
    ((s.wallets.find? (fun w2 =>
        w2.userId == userId && w2.assetTypeId == assetTypeId) = some w) →
     (s.assetTypes.find? (fun a2 => a2.id == w.assetTypeId) = some a) →
     getBalance s userId assetTypeId =
       (.ok { userId := userId, assetTypeId := assetTypeId,
              assetName := a.name, assetSymbol := a.symbol,
              balance := formatFixed4 (specBalanceOf s.entries w.id) }, s)) := by
  constructor
  · intro hwf haf
    unfold getBalance
    rw [hwf]
    simp only []
    rw [haf]
  · intro hwf haf
    unfold getBalance
    rw [hwf]
    simp only []
    rw [haf, ← balanceOf_eq_specBalanceOf]
    rfl

/-- C9 witness: a user with no wallet reads "0.0000" from the unchanged
store; an existing wallet reads its derived balance, rendered with four
fractional digits. -/
theorem c9_get_balance_witness :
    getBalance demoStore "u-bob" "a-gold" =
      (.ok { userId := "u-bob", assetTypeId := "a-gold",
             assetName := "Gold Coins", assetSymbol := "GC",
             balance := "0.0000" }, demoStore) ∧
    getBalance seededStore "u-x" "a-gold" =
      (.ok { userId := "u-x", assetTypeId := "a-gold",
             assetName := "Gold Coins", assetSymbol := "GC",
             balance := formatFixed4 (specBalanceOf seededStore.entries "w-usr") },
       seededStore) := by
  constructor
  · exact (c9_get_balance demoStore "u-bob" "a-gold"
      { id := "a-gold", name := "Gold Coins", symbol := "GC" }
      { id := "w-none", userId := "none", assetTypeId := "none" }).1
      (by decide) (by decide)
  · exact (c9_get_balance seededStore "u-x" "a-gold"
      { id := "a-gold", name := "Gold Coins", symbol := "GC" }
      { id := "w-usr", userId := "u-x", assetTypeId := "a-gold" }).2
      (by decide) (by decide)
